import Mathlib

/-!
# Asset-account chaincode: `create_user` and `transfer_money`

A shallow embedding of `src/chaincode.go`.  Go values are modelled as follows.

* `string` and `[]byte` are `String`; a nil byte slice handed back by the ledger is `none`.
* `int` is the 64-bit signed range, `GoInt`; `-=` wraps around.
* a slice is a header (`Slice`) pointing into a heap of backing arrays, so that
  copying a struct copies the header and shares the array, as in Go.
* the ledger stub (`shim.ChaincodeStub`) is a key-value state together with the
  list of calls made so far and two schedules saying which calls the ledger answers
  with an error.
* `encoding/json` is a parameter (`Json`): a printer and a reader of Account Records.
* a call returns `(nil, nil)`, returns `(nil, err)`, or stops in a run-time panic.
-/

set_option autoImplicit false

namespace Chaincode

/-! ## Go integers -/

/-- Two's complement wrap-around of a mathematical integer into the range of a 64-bit `int`. -/
def wrapInt (i : Int) : Int :=
  (i + 9223372036854775808) % 18446744073709551616 - 9223372036854775808

/-- Values of Go type `int` on a 64-bit target. -/
abbrev GoInt : Type := { i : Int // -9223372036854775808 ≤ i ∧ i ≤ 9223372036854775807 }

/-- Conversion of an integer constant to `int` (wrapping). -/
def GoInt.ofInt (i : Int) : GoInt :=
  ⟨wrapInt i, by unfold wrapInt; omega⟩

/-- Go subtraction on `int`: the mathematical difference, wrapped. -/
def GoInt.sub (a b : GoInt) : GoInt :=
  GoInt.ofInt (a.val - b.val)

/-! ## Errors and results -/

/-- Error values a call can hand back. -/
inductive GoError where
  /-- The value of `errors.New(text)`. -/
  | New (text : String)
  /-- The `*strconv.NumError` of a failed `strconv.Atoi(num)`. -/
  | NumError (num : String) (err : String)
  /-- An error value handed back by the ledger stub. -/
  | Ledger (text : String)
  deriving DecidableEq, Repr

/-- Outcome of one chaincode call (`([]byte, error)`; the payload is always nil). -/
inductive Result where
  /-- The call returned `nil, nil`. -/
  | success
  /-- The call returned `nil, err`. -/
  | failure (err : GoError)
  /-- The call stopped in a Go run-time panic and returned nothing. -/
  | panic (text : String)
  deriving DecidableEq, Repr

/-! ## strconv.Atoi -/

/-- Value of an ASCII decimal digit. -/
def digitVal (c : Char) : Option Nat :=
  if 48 ≤ c.toNat ∧ c.toNat ≤ 57 then some (c.toNat - 48) else none

/-- Reads a non-empty run of decimal digits that makes up the whole input. -/
def parseDigits : List Char → Nat → Option Nat
  | [], acc => some acc
  | c :: cs, acc =>
    match digitVal c with
    | some d => parseDigits cs (acc * 10 + d)
    | none => none

/-- Reads the digits after the optional sign; the empty run is a syntax error. -/
def parseUnsigned (cs : List Char) : Option Nat :=
  match cs with
  | [] => none
  | _ :: _ => parseDigits cs 0

/-- Reads an optional sign followed by decimal digits, as a mathematical integer. -/
def parseSigned (cs : List Char) : Option Int :=
  match cs with
  | [] => none
  | c :: rest =>
    if c = Char.ofNat 45 then (parseUnsigned rest).map (fun n => - (n : Int))
    else if c = Char.ofNat 43 then (parseUnsigned rest).map (fun n => (n : Int))
    else (parseUnsigned cs).map (fun n => (n : Int))

/-- Go `strconv.Atoi`: base ten, optional sign, result must fit `int`. -/
def Atoi (s : String) : Except GoError GoInt :=
  match parseSigned s.data with
  | none => .error (.NumError s "invalid syntax")
  | some i =>
    if h : -9223372036854775808 ≤ i ∧ i ≤ 9223372036854775807 then .ok ⟨i, h⟩
    else .error (.NumError s "value out of range")

/-! ## The ledger stub -/

/-- Go `[]byte` holding text. -/
abbrev Bytes : Type := String

/-- Calls a chaincode function makes on the stub. -/
inductive Call where
  /-- Go `stub.GetState(key)`. -/
  | GetState (key : String)
  /-- Go `stub.PutState(key, value)`, whether or not the ledger accepted it. -/
  | PutState (key : String) (value : Bytes)
  deriving DecidableEq, Repr

/-- Number of `GetState` calls in a call list. -/
def nGets : List Call → Nat
  | [] => 0
  | Call.GetState _ :: l => nGets l + 1
  | Call.PutState _ _ :: l => nGets l

/-- Number of `PutState` calls in a call list. -/
def nPuts : List Call → Nat
  | [] => 0
  | Call.GetState _ :: l => nPuts l
  | Call.PutState _ _ :: l => nPuts l + 1

/-- Model of `shim.ChaincodeStub`: the world state, the schedules of failing calls
(`getFault n` / `putFault n` is the error text of the `n`-th `GetState` / `PutState`, counted
from zero, or `none` when the ledger answers it), and the calls made so far, oldest first. -/
structure ChaincodeStub where
  state : String → Option Bytes
  getFault : Nat → Option String
  putFault : Nat → Option String
  log : List Call

/-- Go `stub.GetState(key)`: the stored bytes, nil (`none`) for a key that is not there. -/
def GetState (stub : ChaincodeStub) (key : String) : Except GoError (Option Bytes) × ChaincodeStub :=
  let stub1 := { stub with log := stub.log ++ [Call.GetState key] }
  match stub.getFault (nGets stub.log) with
  | some text => (.error (.Ledger text), stub1)
  | none => (.ok (stub.state key), stub1)

/-- Go `stub.PutState(key, value)`: a rejected write leaves the state as it was. -/
def PutState (stub : ChaincodeStub) (key : String) (value : Bytes) : Option GoError × ChaincodeStub :=
  let log1 := stub.log ++ [Call.PutState key value]
  match stub.putFault (nPuts stub.log) with
  | some text => (some (.Ledger text), { stub with log := log1 })
  | none =>
    (none, { stub with state := fun k => if k = key then some value else stub.state k, log := log1 })

/-- Go `string(b)` for a byte slice that may be nil. -/
def bytesToString (b : Option Bytes) : String :=
  b.getD ""

/-! ## Records and JSON -/

/-- Go `type Asset struct`. -/
structure Asset where
  Name : String
  Qty : GoInt
  deriving DecidableEq, Repr

/-- Account Record as a value: what JSON text denotes (user id and asset lines in order). -/
structure Record where
  userid : String
  assets : List Asset
  deriving DecidableEq, Repr

/-- The two functions of `encoding/json` the chaincode uses, at type `UserAssets`.
`Unmarshal` is what decoding into a zero `UserAssets` leaves in it (the chaincode ignores the
error of `json.Unmarshal`); `Marshal` cannot fail at this type. -/
structure Json where
  Marshal : Record → Bytes
  Unmarshal : Bytes → Record

/-! ## Slices -/

/-- Go slice header: the address of the backing array and the length. -/
structure Slice where
  arr : Nat
  len : Nat
  deriving DecidableEq, Repr

/-- Backing arrays of the slices a call has allocated, by address. -/
abbrev Heap : Type := List (List Asset)

/-- The array at an address. -/
def Heap.array (heap : Heap) (p : Nat) : List Asset :=
  heap.getD p []

/-- The elements a slice header sees: the first `len` cells of its backing array. -/
def Slice.elems (heap : Heap) (s : Slice) : List Asset :=
  (heap.array s.arr).take s.len

/-- Go `s[i]` as a read: `none` is the run-time panic for an index out of range. -/
def Slice.index (heap : Heap) (s : Slice) (i : Int) : Option Asset :=
  if 0 ≤ i ∧ i < s.len then (s.elems heap)[i.toNat]? else none

/-- Go `s[i] = a` for an index in range: the cell of the backing array is overwritten, for
every header that points to that array. -/
def Heap.assign (heap : Heap) (s : Slice) (i : Nat) (a : Asset) : Heap :=
  heap.set s.arr ((heap.array s.arr).set i a)

/-- Go `append(s, a)`, as a copy into a new backing array.  When Go extends the array in place
instead, headers copied earlier keep their length and see the same cells as before, so the two
cases show no difference to the code embedded here. -/
def goAppend (heap : Heap) (s : Slice) (a : Asset) : Heap × Slice :=
  (heap ++ [s.elems heap ++ [a]], { arr := heap.length, len := s.len + 1 })

/-- Go `type UserAssets struct`: the `Assets` field is a slice header. -/
structure UserAssets where
  UserId : String
  Assets : Slice
  deriving DecidableEq, Repr

/-- Go `json.Unmarshal(data, &v)` into a zero `v`: the decoded lines go to a new backing array.
Nil and empty input are the same to the decoder. -/
def jsonUnmarshal (J : Json) (heap : Heap) (data : Option Bytes) : Heap × UserAssets :=
  let r := J.Unmarshal (bytesToString data)
  (heap ++ [r.assets], { UserId := r.userid, Assets := { arr := heap.length, len := r.assets.length } })

/-- Go `json.Marshal(v)`: prints the user id and the elements the slice header sees now. -/
def jsonMarshal (J : Json) (heap : Heap) (v : UserAssets) : Bytes :=
  J.Marshal { userid := v.UserId, assets := v.Assets.elems heap }

/-- Loop `for i := 0; i < len(assets); i++ { if assets[i].Name == assetName { index = i } }`
run on the remaining cells, `i` being the position of the first of them. -/
def findAssetLoop (assetName : String) : List Asset → Int → Int → Int
  | [], _, index => index
  | a :: rest, i, index => findAssetLoop assetName rest (i + 1) (if a.Name = assetName then i else index)

/-- Index search of `transfer_money`: starts from `-1`, the last line of that name wins. -/
def findAssetIndex (assets : List Asset) (assetName : String) : Int :=
  findAssetLoop assetName assets 0 (-1)

/-! ## create_user -/

/-- Go `func (t *SimpleChaincode) create_user(stub, args)`. -/
def create_user (J : Json) (stub : ChaincodeStub) (args : List String) : Result × ChaincodeStub :=
  match args with
  | [userid, accountNum] =>
    match GetState stub userid with
    | (.error err, stub1) => (.failure err, stub1)
    | (.ok valAsbytes, stub1) =>
      if valAsbytes ≠ none then (.failure (.New "userid already used."), stub1)
      else
        match PutState stub1 userid accountNum with
        | (some err, stub2) => (.failure err, stub2)
        | (none, stub2) =>
          let asset : Asset := { Name := "USD", Qty := GoInt.ofInt 10000 }
          let userAssets : UserAssets := { UserId := userid, Assets := { arr := 0, len := 0 } }
          let (heap, assets) := goAppend [] userAssets.Assets asset
          let userAssets : UserAssets := { userAssets with Assets := assets }
          let userAssetsJsonAsBytes := jsonMarshal J heap userAssets
          match PutState stub2 accountNum userAssetsJsonAsBytes with
          | (some err, stub3) => (.failure err, stub3)
          | (none, stub3) => (.success, stub3)
  | _ => (.failure (.New "Incorrect number of arguments. Expecting 2. name of the variable and value to set"), stub)

/-! ## transfer_money -/

/-- Go `func (t *SimpleChaincode) transfer_money(stub, args)`. -/
def transfer_money (J : Json) (stub : ChaincodeStub) (args : List String) : Result × ChaincodeStub :=
  match args with
  | [fromUserId, toUserId, assetName, qtyArg] =>
    match Atoi qtyArg with
    | .error err => (.failure err, stub)
    | .ok qty =>
    if qty.val ≤ 0 then (.failure (.New "Invalid Amount. Amount should be greater than 0"), stub)
    else
    match GetState stub fromUserId with
    | (.error err, stub1) => (.failure err, stub1)
    | (.ok senderAccNoAsBytes, stub1) =>
    let senderAccNo := bytesToString senderAccNoAsBytes
    -- Sender Assets Validation
    match GetState stub1 senderAccNo with
    | (.error err, stub2) => (.failure err, stub2)
    | (.ok senderAssetsAsBytes, stub2) =>
    let (heap, senderAssets) := jsonUnmarshal J [] senderAssetsAsBytes
    let senderAssetsOld := senderAssets
    let senderAssetIndex := findAssetIndex (senderAssets.Assets.elems heap) assetName
    if senderAssetIndex = -1 then
      (.failure (.New "Sender does not hold any unit(s) of this asset"), stub2)
    else
    match senderAssets.Assets.index heap senderAssetIndex with
    | none => (.panic "runtime error: index out of range", stub2)
    | some senderLine =>
    if senderLine.Qty.val < qty.val then (.failure (.New "Insufficient funds"), stub2)
    else
    let heap := heap.assign senderAssets.Assets senderAssetIndex.toNat
      { senderLine with Qty := senderLine.Qty.sub qty }
    -- Recipient Assets Validation
    match GetState stub2 toUserId with
    | (.error err, stub3) => (.failure err, stub3)
    | (.ok recipientAccNoAsBytes, stub3) =>
    let recipientAccNo := bytesToString recipientAccNoAsBytes
    match GetState stub3 recipientAccNo with
    | (.error err, stub4) => (.failure err, stub4)
    | (.ok recipientAssetsAsBytes, stub4) =>
    let (heap, recipientAssets) := jsonUnmarshal J heap recipientAssetsAsBytes
    let recipientAssetsOld := recipientAssets
    let recipientAssetIndex := findAssetIndex (recipientAssets.Assets.elems heap) assetName
    let updated : Option (Heap × UserAssets) :=
      if recipientAssetIndex = -1 then
        let recipientAsset : Asset := { Name := assetName, Qty := qty }
        let (heap, assets) := goAppend heap recipientAssets.Assets recipientAsset
        some (heap, { recipientAssets with Assets := assets })
      else
        match recipientAssets.Assets.index heap recipientAssetIndex with
        | none => none
        | some recipientLine =>
          some (heap.assign recipientAssets.Assets recipientAssetIndex.toNat
            { recipientLine with Qty := recipientLine.Qty.sub qty }, recipientAssets)
    match updated with
    | none => (.panic "runtime error: index out of range", stub4)
    | some (heap, recipientAssets) =>
    -- validating asset quantity
    match recipientAssets.Assets.index heap recipientAssetIndex with
    | none => (.panic "runtime error: index out of range", stub4)
    | some recipientLine =>
    if recipientLine.Qty.val < qty.val then (.failure (.New "Insufficient funds"), stub4)
    else
    let recipientAssetsAsBytes := jsonMarshal J heap recipientAssets
    let senderAssetsAsBytes := jsonMarshal J heap senderAssets
    let recipientAssetsOldAsBytes := jsonMarshal J heap recipientAssetsOld
    let _senderAssetsOldAsBytes := jsonMarshal J heap senderAssetsOld
    match PutState stub4 recipientAccNo recipientAssetsAsBytes with
    | (some err, stub5) => (.failure err, stub5)
    | (none, stub5) =>
    match PutState stub5 senderAccNo senderAssetsAsBytes with
    | (some err, stub6) =>
      let (_, stub7) := PutState stub6 recipientAccNo recipientAssetsOldAsBytes
      (.failure err, stub7)
    | (none, stub6) => (.success, stub6)
  | _ => (.failure (.New "Incorrect number of arguments. Expecting 2. name of the variable and value to set"), stub)

/-! ## A reference JSON codec

`jsonStd` prints an Account Record the way `encoding/json` prints a `UserAssets` (fields in
declaration order, no white space) and reads back texts of that shape; any other text decodes
to the zero record.  It instantiates the `Json` parameter at concrete inputs. -/

/-- The double quote character. -/
def chQuote : Char := Char.ofNat 34

/-- The backslash character. -/
def chBackslash : Char := Char.ofNat 92

/-- Decimal digits of a natural number, most significant first (`fuel` bounds their count). -/
def natDigits : Nat → Nat → List Char
  | 0, _ => []
  | fuel + 1, n =>
    if n < 10 then [Char.ofNat (48 + n)]
    else natDigits fuel (n / 10) ++ [Char.ofNat (48 + n % 10)]

/-- Decimal text of an integer. -/
def showInt (i : Int) : List Char :=
  if i < 0 then Char.ofNat 45 :: natDigits 20 i.natAbs else natDigits 20 i.natAbs

/-- Escapes quote and backslash inside a JSON string. -/
def escapeChars : List Char → List Char
  | [] => []
  | c :: cs =>
    if c = chQuote ∨ c = chBackslash then chBackslash :: c :: escapeChars cs
    else c :: escapeChars cs

/-- JSON text of a string. -/
def showString (s : String) : List Char :=
  chQuote :: (escapeChars s.data ++ [chQuote])

/-- JSON text of one asset line. -/
def showAsset (a : Asset) : List Char :=
  "\x7b\"name\":".data ++ showString a.Name ++ ",\"qty\":".data ++ showInt a.Qty.val ++ "\x7d".data

/-- JSON text of the asset lines, separated by commas. -/
def showAssets : List Asset → List Char
  | [] => []
  | [a] => showAsset a
  | a :: b :: rest => showAsset a ++ (Char.ofNat 44 :: showAssets (b :: rest))

/-- Printer of `jsonStd`. -/
def marshalStd (r : Record) : Bytes :=
  String.mk ("\x7b\"userid\":".data ++ showString r.userid ++ ",\"assets\":[".data
    ++ showAssets r.assets ++ "]\x7d".data)

/-- Drops the literal text `lit` from the front of the input. -/
def expectLit (lit : List Char) (inp : List Char) : Option (List Char) :=
  match lit, inp with
  | [], rest => some rest
  | _ :: _, [] => none
  | c :: cs, d :: ds => if c = d then expectLit cs ds else none

/-- Reads a JSON string after its opening quote; `acc` holds the characters read, reversed. -/
def readString : Nat → List Char → List Char → Option (String × List Char)
  | 0, _, _ => none
  | _ + 1, [], _ => none
  | fuel + 1, c :: cs, acc =>
    if c = chQuote then some (String.mk acc.reverse, cs)
    else if c = chBackslash then
      match cs with
      | [] => none
      | d :: ds => if d = chQuote ∨ d = chBackslash then readString fuel ds (d :: acc) else none
    else readString fuel cs (c :: acc)

/-- Reads a run of decimal digits; gives the value, the number of digits and the rest. -/
def readDigits : List Char → Nat → Nat → Nat × Nat × List Char
  | [], acc, k => (acc, k, [])
  | c :: cs, acc, k =>
    match digitVal c with
    | some d => readDigits cs (acc * 10 + d) (k + 1)
    | none => (acc, k, c :: cs)

/-- Reads a JSON integer that fits `int`. -/
def readInt (inp : List Char) : Option (GoInt × List Char) :=
  let neg : Bool := inp.head? = some (Char.ofNat 45)
  let body := if neg then inp.tail else inp
  match readDigits body 0 0 with
  | (n, k, rest) =>
    if k = 0 then none
    else
      let i : Int := if neg then - (n : Int) else (n : Int)
      if h : -9223372036854775808 ≤ i ∧ i ≤ 9223372036854775807 then some (⟨i, h⟩, rest) else none

/-- Reads one asset line. -/
def readAsset (inp : List Char) : Option (Asset × List Char) :=
  match expectLit "\x7b\"name\":\"".data inp with
  | none => none
  | some r1 =>
    match readString (r1.length + 1) r1 [] with
    | none => none
    | some (name, r2) =>
      match expectLit ",\"qty\":".data r2 with
      | none => none
      | some r3 =>
        match readInt r3 with
        | none => none
        | some (qty, r4) =>
          match expectLit "\x7d".data r4 with
          | none => none
          | some r5 => some ({ Name := name, Qty := qty }, r5)

/-- Reads asset lines up to the closing bracket, which it consumes. -/
def readAssets : Nat → List Char → Option (List Asset × List Char)
  | 0, _ => none
  | fuel + 1, inp =>
    match readAsset inp with
    | none => none
    | some (a, rest) =>
      match rest with
      | c :: rest1 =>
        if c = Char.ofNat 93 then some ([a], rest1)
        else if c = Char.ofNat 44 then
          match readAssets fuel rest1 with
          | none => none
          | some (more, rest2) => some (a :: more, rest2)
        else none
      | [] => none

/-- Reads a whole Account Record; `none` when the text has another shape. -/
def readRecord (inp : List Char) : Option Record :=
  match expectLit "\x7b\"userid\":\"".data inp with
  | none => none
  | some r1 =>
    match readString (r1.length + 1) r1 [] with
    | none => none
    | some (userid, r2) =>
      match expectLit ",\"assets\":[".data r2 with
      | none => none
      | some r3 =>
        let lines : Option (List Asset × List Char) :=
          match r3 with
          | c :: r4 => if c = Char.ofNat 93 then some ([], r4) else readAssets (r3.length + 1) r3
          | [] => none
        match lines with
        | some (assets, [c]) => if c = Char.ofNat 125 then some { userid := userid, assets := assets } else none
        | _ => none

/-- Reader of `jsonStd`: a text of another shape leaves the zero record. -/
def unmarshalStd (data : Bytes) : Record :=
  (readRecord data.data).getD { userid := "", assets := [] }

/-- The reference codec. -/
def jsonStd : Json :=
  { Marshal := marshalStd, Unmarshal := unmarshalStd }

/-! ## Concrete ledgers -/

/-- JSON text of an Account Record with a single asset line. -/
def recordText (userid asset qty : String) : Bytes :=
  "\x7b\"userid\":\"" ++ userid ++ "\",\"assets\":[\x7b\"name\":\"" ++ asset ++ "\",\"qty\":" ++ qty
    ++ "\x7d]\x7d"

/-- Ledger that holds nothing and answers every call. -/
def ledgerEmpty : ChaincodeStub :=
  { state := fun _ => none, getFault := fun _ => none, putFault := fun _ => none, log := [] }

/-- Ledger with the users `alice` (account `A1`) and `bob` (account `A2`), each holding
10000 USD, that answers every call. -/
def ledgerTwoUsers : ChaincodeStub :=
  { state := fun k =>
      if k = "alice" then some "A1"
      else if k = "bob" then some "A2"
      else if k = "A1" then some (recordText "alice" "USD" "10000")
      else if k = "A2" then some (recordText "bob" "USD" "10000")
      else none,
    getFault := fun _ => none, putFault := fun _ => none, log := [] }

/-- Ledger like `ledgerTwoUsers` in which `bob` holds 5 EUR and no USD line. -/
def ledgerNoUsdLine : ChaincodeStub :=
  { state := fun k =>
      if k = "alice" then some "A1"
      else if k = "bob" then some "A2"
      else if k = "A1" then some (recordText "alice" "USD" "10000")
      else if k = "A2" then some (recordText "bob" "EUR" "5")
      else none,
    getFault := fun _ => none, putFault := fun _ => none, log := [] }

/-- Ledger `ledgerTwoUsers` that refuses the second write made on it and accepts all others. -/
def ledgerSecondWriteFails : ChaincodeStub :=
  { ledgerTwoUsers with putFault := fun n => if n = 1 then some "write refused" else none }

/-- Ledger reached from `ledgerTwoUsers` by `create_user(carol, C1)`. -/
def ledgerWithCarol : ChaincodeStub :=
  (create_user jsonStd ledgerTwoUsers ["carol", "C1"]).2

/-- Ledger reached from `ledgerWithCarol` by `create_user(dave, carol)`: the account id given
to the new user `dave` is the user id of `carol`. -/
def ledgerDaveOnCarol : ChaincodeStub :=
  (create_user jsonStd ledgerWithCarol ["dave", "carol"]).2

/-- Ledger `ledgerTwoUsers` that refuses the second and the third write made on it, with
different error texts, and accepts all others. -/
def ledgerRollbackRefused : ChaincodeStub :=
  { ledgerTwoUsers with
    putFault := fun n =>
      if n = 1 then some "write refused" else if n = 2 then some "rollback refused" else none }

/-- Ledger with the user `alice` (account `A1`, 10000 USD) and the user `bob` whose account
`A2` holds the smallest `int` as its USD quantity. -/
def ledgerDeepDebt : ChaincodeStub :=
  { state := fun k =>
      if k = "alice" then some "A1"
      else if k = "bob" then some "A2"
      else if k = "A1" then some (recordText "alice" "USD" "10000")
      else if k = "A2" then some (recordText "bob" "USD" "-9223372036854775808")
      else none,
    getFault := fun _ => none, putFault := fun _ => none, log := [] }

/-- Ledger that holds nothing, accepts its first write and refuses the second. -/
def ledgerEmptySecondWriteFails : ChaincodeStub :=
  { ledgerEmpty with putFault := fun n => if n = 1 then some "write refused" else none }

/-- Ledger `ledgerTwoUsers` that refuses the first write made on it and accepts all others. -/
def ledgerFirstWriteFails : ChaincodeStub :=
  { ledgerTwoUsers with putFault := fun n => if n = 0 then some "write refused" else none }

/-- Ledger `ledgerTwoUsers` with a second user id, `alias`, that resolves to the account `A1`
of `alice`. -/
def ledgerSharedAccount : ChaincodeStub :=
  { ledgerTwoUsers with
    state := fun k => if k = "alias" then some "A1" else ledgerTwoUsers.state k }

/-! ## Auxiliary lemmas -/

theorem nGets_append (l₁ l₂ : List Call) : nGets (l₁ ++ l₂) = nGets l₁ + nGets l₂ := by
  induction l₁ with
  | nil => simp [nGets]
  | cons c l ih => cases c <;> simp [nGets, ih]; omega

theorem nPuts_append (l₁ l₂ : List Call) : nPuts (l₁ ++ l₂) = nPuts l₁ + nPuts l₂ := by
  induction l₁ with
  | nil => simp [nPuts]
  | cons c l ih => cases c <;> simp [nPuts, ih]; omega

theorem findAssetLoop_none (A : String) (l : List Asset) (i idx : Int)
    (h : ∀ a ∈ l, a.Name ≠ A) : findAssetLoop A l i idx = idx := by
  induction l generalizing i idx with
  | nil => rfl
  | cons a rest ih =>
    have ha : a.Name ≠ A := h a (List.mem_cons_self _ _)
    simp only [findAssetLoop, if_neg ha]
    exact ih _ _ (fun b hb => h b (List.mem_cons_of_mem _ hb))

theorem findAssetLoop_last (A : String) (pre : List Asset) (a : Asset) (post : List Asset)
    (i idx : Int) (ha : a.Name = A) (hpost : ∀ b ∈ post, b.Name ≠ A) :
    findAssetLoop A (pre ++ a :: post) i idx = i + pre.length := by
  induction pre generalizing i idx with
  | nil =>
    simp only [List.nil_append, findAssetLoop, if_pos ha]
    rw [findAssetLoop_none A post _ _ hpost]; simp
  | cons b rest ih =>
    rw [List.cons_append, findAssetLoop, ih]
    simp only [List.length_cons, Nat.cast_add, Nat.cast_one]; omega

/-- The search gives `-1` when no line has the name, and otherwise splits the lines at the
last line of that name. -/
theorem findAssetIndex_spec (A : String) (l : List Asset) :
    ((∀ a ∈ l, a.Name ≠ A) ∧ findAssetIndex l A = -1) ∨
    (∃ pre a post, l = pre ++ a :: post ∧ a.Name = A ∧ (∀ b ∈ post, b.Name ≠ A) ∧
      findAssetIndex l A = pre.length) := by
  by_cases h : ∀ a ∈ l, a.Name ≠ A
  · left; exact ⟨h, findAssetLoop_none A l 0 (-1) h⟩
  · right
    have hex : ∃ a ∈ l.reverse, a.Name = A := by
      by_contra hc
      apply h
      intro a ha hn
      exact hc ⟨a, List.mem_reverse.mpr ha, hn⟩
    -- split the reversed list at its first line of that name
    obtain ⟨a, ha, hn⟩ := hex
    have hsplit : ∀ (r : List Asset), (∃ a ∈ r, a.Name = A) →
        ∃ front a back, r = front ++ a :: back ∧ a.Name = A ∧ ∀ b ∈ front, b.Name ≠ A := by
      intro r
      induction r with
      | nil => rintro ⟨a, ha, _⟩; simp at ha
      | cons c r ih =>
        rintro ⟨a, ha, hn⟩
        by_cases hc : c.Name = A
        · exact ⟨[], c, r, rfl, hc, by simp⟩
        · rcases List.mem_cons.mp ha with rfl | ha
          · exact absurd hn hc
          · obtain ⟨front, x, back, hr, hx, hfront⟩ := ih ⟨a, ha, hn⟩
            refine ⟨c :: front, x, back, by simp [hr], hx, ?_⟩
            intro b hb
            rcases List.mem_cons.mp hb with rfl | hb
            · exact hc
            · exact hfront b hb
    obtain ⟨front, x, back, hr, hx, hfront⟩ := hsplit l.reverse ⟨a, ha, hn⟩
    have hl : l = back.reverse ++ x :: front.reverse := by
      have := congrArg List.reverse hr
      simpa using this
    refine ⟨back.reverse, x, front.reverse, hl, hx, ?_, ?_⟩
    · intro b hb; exact hfront b (List.mem_reverse.mp hb)
    · have hpost : ∀ b ∈ front.reverse, b.Name ≠ A := fun b hb => hfront b (List.mem_reverse.mp hb)
      unfold findAssetIndex
      rw [hl, findAssetLoop_last A back.reverse x front.reverse 0 (-1) hx hpost]; simp

theorem findAssetIndex_none (A : String) (l : List Asset) (h : ∀ a ∈ l, a.Name ≠ A) :
    findAssetIndex l A = -1 :=
  findAssetLoop_none A l 0 (-1) h

theorem findAssetIndex_last (A : String) (pre : List Asset) (a : Asset) (post : List Asset)
    (ha : a.Name = A) (hpost : ∀ b ∈ post, b.Name ≠ A) :
    findAssetIndex (pre ++ a :: post) A = pre.length := by
  unfold findAssetIndex
  rw [findAssetLoop_last A pre a post 0 (-1) ha hpost]; simp

theorem set_length_append (pre : List Asset) (a b : Asset) (post : List Asset) :
    (pre ++ a :: post).set pre.length b = pre ++ b :: post := by
  induction pre with
  | nil => rfl
  | cons c rest ih => simp [ih]

theorem getElem?_length_append (pre : List Asset) (a : Asset) (post : List Asset) :
    (pre ++ a :: post)[pre.length]? = some a := by
  induction pre with
  | nil => simp
  | cons c rest ih => simpa using ih

theorem take_length_set (l : List Asset) (i : Nat) (a : Asset) :
    (l.set i a).take l.length = l.set i a := by
  have h : (l.set i a).length = l.length := List.length_set _ _ _
  rw [← h, List.take_length]

theorem lt_length_of_getElem? (l : List Asset) (i : Nat) (a : Asset) (h : l[i]? = some a) :
    i < l.length := by
  by_contra hc
  rw [List.getElem?_eq_none (by omega)] at h
  exact Option.noConfusion h

/-- Symbolic run of `transfer_money` on the existing-line path, up to the three writes: the
sender's line at index `iS` and the recipient's line at index `iR` are both debited, and the
text written back as the recipient's old record is the text of the debited record. -/
theorem transfer_money_existing_line_at (J : Json) (stub : ChaincodeStub)
    (fromUserId toUserId A qtyArg : String) (q : GoInt)
    (recS recR : Record) (iS iR : Nat) (lineS lineR : Asset)
    (hq : Atoi qtyArg = .ok q) (hpos : 0 < q.val)
    (hg0 : stub.getFault (nGets stub.log) = none)
    (hg1 : stub.getFault (nGets stub.log + 1) = none)
    (hg2 : stub.getFault (nGets stub.log + 2) = none)
    (hg3 : stub.getFault (nGets stub.log + 3) = none)
    (hS : J.Unmarshal (bytesToString (stub.state (bytesToString (stub.state fromUserId)))) = recS)
    (hiS : findAssetIndex recS.assets A = iS) (hlS : recS.assets[iS]? = some lineS)
    (hhs : q.val ≤ lineS.Qty.val)
    (hR : J.Unmarshal (bytesToString (stub.state (bytesToString (stub.state toUserId)))) = recR)
    (hiR : findAssetIndex recR.assets A = iR) (hlR : recR.assets[iR]? = some lineR) :
    transfer_money J stub [fromUserId, toUserId, A, qtyArg] =
      (let S := bytesToString (stub.state fromUserId)
       let R := bytesToString (stub.state toUserId)
       let stub4 : ChaincodeStub := { stub with log := stub.log ++
         [Call.GetState fromUserId, Call.GetState S, Call.GetState toUserId, Call.GetState R] }
       let bS := J.Marshal ⟨recS.userid, recS.assets.set iS ⟨lineS.Name, lineS.Qty.sub q⟩⟩
       let bR := J.Marshal ⟨recR.userid, recR.assets.set iR ⟨lineR.Name, lineR.Qty.sub q⟩⟩
       if (lineR.Qty.sub q).val < q.val then (.failure (.New "Insufficient funds"), stub4)
       else
         match PutState stub4 R bR with
         | (some err, stub5) => (.failure err, stub5)
         | (none, stub5) =>
           match PutState stub5 S bS with
           | (some err, stub6) => (.failure err, (PutState stub6 R bR).2)
           | (none, stub6) => (.success, stub6)) := by
  have hq' : ¬ q.val ≤ 0 := by omega
  have hhs' : ¬ lineS.Qty.val < q.val := by omega
  have hltS := lt_length_of_getElem? _ _ _ hlS
  have hltR := lt_length_of_getElem? _ _ _ hlR
  have hnS : ((iS : Int) = -1) = False := by simp
  have hnR : ((iR : Int) = -1) = False := by simp
  simp [transfer_money, hq, hq', GetState, hg0, hg1, hg2, hg3, nGets_append, nGets, jsonUnmarshal,
    jsonMarshal, Slice.elems, Heap.array,
    Slice.index, Heap.assign, hS, hR, hiS, hiR, hlS, hlR, hhs', hnS, hnR, hltS, hltR, take_length_set]

/-- The same run with each record split at its last line named `A`. -/
theorem transfer_money_existing_line (J : Json) (stub : ChaincodeStub)
    (fromUserId toUserId A qtyArg : String) (q : GoInt)
    (uS uR : String) (preS postS preR postR : List Asset) (hs hr : GoInt)
    (hq : Atoi qtyArg = .ok q) (hpos : 0 < q.val)
    (hg0 : stub.getFault (nGets stub.log) = none)
    (hg1 : stub.getFault (nGets stub.log + 1) = none)
    (hg2 : stub.getFault (nGets stub.log + 2) = none)
    (hg3 : stub.getFault (nGets stub.log + 3) = none)
    (hS : J.Unmarshal (bytesToString (stub.state (bytesToString (stub.state fromUserId))))
      = ⟨uS, preS ++ ⟨A, hs⟩ :: postS⟩)
    (hpostS : ∀ b ∈ postS, b.Name ≠ A) (hhs : q.val ≤ hs.val)
    (hR : J.Unmarshal (bytesToString (stub.state (bytesToString (stub.state toUserId))))
      = ⟨uR, preR ++ ⟨A, hr⟩ :: postR⟩)
    (hpostR : ∀ b ∈ postR, b.Name ≠ A) :
    transfer_money J stub [fromUserId, toUserId, A, qtyArg] =
      (let S := bytesToString (stub.state fromUserId)
       let R := bytesToString (stub.state toUserId)
       let stub4 : ChaincodeStub := { stub with log := stub.log ++
         [Call.GetState fromUserId, Call.GetState S, Call.GetState toUserId, Call.GetState R] }
       let bS := J.Marshal ⟨uS, preS ++ ⟨A, hs.sub q⟩ :: postS⟩
       let bR := J.Marshal ⟨uR, preR ++ ⟨A, hr.sub q⟩ :: postR⟩
       if (hr.sub q).val < q.val then (.failure (.New "Insufficient funds"), stub4)
       else
         match PutState stub4 R bR with
         | (some err, stub5) => (.failure err, stub5)
         | (none, stub5) =>
           match PutState stub5 S bS with
           | (some err, stub6) => (.failure err, (PutState stub6 R bR).2)
           | (none, stub6) => (.success, stub6)) := by
  have h := transfer_money_existing_line_at J stub fromUserId toUserId A qtyArg q
    ⟨uS, preS ++ ⟨A, hs⟩ :: postS⟩ ⟨uR, preR ++ ⟨A, hr⟩ :: postR⟩ preS.length preR.length
    ⟨A, hs⟩ ⟨A, hr⟩ hq hpos hg0 hg1 hg2 hg3 hS
    (findAssetIndex_last A preS ⟨A, hs⟩ postS rfl hpostS) (getElem?_length_append _ _ _) hhs hR
    (findAssetIndex_last A preR ⟨A, hr⟩ postR rfl hpostR) (getElem?_length_append _ _ _)
  simpa [set_length_append] using h

/-- Run of `transfer_money` when the recipient has no line named `A`: the index stays `-1`
after the append and the re-check reads `Assets[-1]`. -/
theorem transfer_money_new_line_at (J : Json) (stub : ChaincodeStub)
    (fromUserId toUserId A qtyArg : String) (q : GoInt)
    (recS : Record) (iS : Nat) (lineS : Asset)
    (hq : Atoi qtyArg = .ok q) (hpos : 0 < q.val)
    (hg0 : stub.getFault (nGets stub.log) = none)
    (hg1 : stub.getFault (nGets stub.log + 1) = none)
    (hg2 : stub.getFault (nGets stub.log + 2) = none)
    (hg3 : stub.getFault (nGets stub.log + 3) = none)
    (hS : J.Unmarshal (bytesToString (stub.state (bytesToString (stub.state fromUserId)))) = recS)
    (hiS : findAssetIndex recS.assets A = iS) (hlS : recS.assets[iS]? = some lineS)
    (hhs : q.val ≤ lineS.Qty.val)
    (hR : ∀ b ∈ (J.Unmarshal (bytesToString (stub.state (bytesToString (stub.state toUserId))))).assets,
      b.Name ≠ A) :
    transfer_money J stub [fromUserId, toUserId, A, qtyArg] =
      (.panic "runtime error: index out of range",
       { stub with log := stub.log ++
         [Call.GetState fromUserId, Call.GetState (bytesToString (stub.state fromUserId)),
          Call.GetState toUserId, Call.GetState (bytesToString (stub.state toUserId))] }) := by
  have hq' : ¬ q.val ≤ 0 := by omega
  have hhs' : ¬ lineS.Qty.val < q.val := by omega
  have hltS := lt_length_of_getElem? _ _ _ hlS
  have hnS : ((iS : Int) = -1) = False := by simp
  have hiR := findAssetIndex_none A _ hR
  simp [transfer_money, hq, hq', GetState, hg0, hg1, hg2, hg3, nGets_append, nGets, jsonUnmarshal,
    Slice.elems, Heap.array, Slice.index, Heap.assign, hS, hiS, hiR, hlS, hhs', hnS, hltS,
    take_length_set, goAppend]

/-- Every run of `transfer_money` on four arguments is of one of the listed kinds: stopped at
the quantity check, at one of the four reads, at the sender's checks, in the panic of the
new-line path, or on the existing-line path with its re-check and writes. -/
theorem transfer_money_cases (J : Json) (stub : ChaincodeStub)
    (fromUserId toUserId A qtyArg : String) :
    (∃ e, transfer_money J stub [fromUserId, toUserId, A, qtyArg] = (.failure e, stub) ∧
      (Atoi qtyArg = .error e ∨
        ((∃ q, Atoi qtyArg = .ok q ∧ q.val ≤ 0) ∧
          e = .New "Invalid Amount. Amount should be greater than 0"))) ∨
    (∃ q, Atoi qtyArg = .ok q ∧ 0 < q.val ∧
      ((∃ t, transfer_money J stub [fromUserId, toUserId, A, qtyArg] =
            (.failure (.Ledger t), { stub with log := stub.log ++ [Call.GetState fromUserId] })) ∨
       (∃ t, transfer_money J stub [fromUserId, toUserId, A, qtyArg] =
            (.failure (.Ledger t), { stub with log := stub.log ++
              [Call.GetState fromUserId, Call.GetState (bytesToString (stub.state fromUserId))] })) ∨
       ((∀ a ∈ (J.Unmarshal (bytesToString (stub.state (bytesToString (stub.state fromUserId))))).assets,
              a.Name ≠ A) ∧
          transfer_money J stub [fromUserId, toUserId, A, qtyArg] =
              (.failure (.New "Sender does not hold any unit(s) of this asset"),
               { stub with log := stub.log ++
                [Call.GetState fromUserId, Call.GetState (bytesToString (stub.state fromUserId))] })) ∨
       (∃ preS postS hs,
          (J.Unmarshal (bytesToString (stub.state (bytesToString (stub.state fromUserId))))).assets
              = preS ++ ⟨A, hs⟩ :: postS ∧ (∀ b ∈ postS, b.Name ≠ A) ∧ hs.val < q.val ∧
          transfer_money J stub [fromUserId, toUserId, A, qtyArg] =
                (.failure (.New "Insufficient funds"),
                 { stub with log := stub.log ++
                  [Call.GetState fromUserId, Call.GetState (bytesToString (stub.state fromUserId))] })) ∨
       (∃ t, transfer_money J stub [fromUserId, toUserId, A, qtyArg] =
                  (.failure (.Ledger t), { stub with log := stub.log ++
                    [Call.GetState fromUserId, Call.GetState (bytesToString (stub.state fromUserId)),
                     Call.GetState toUserId] })) ∨
       (∃ t, transfer_money J stub [fromUserId, toUserId, A, qtyArg] =
                    (.failure (.Ledger t), { stub with log := stub.log ++
                      [Call.GetState fromUserId, Call.GetState (bytesToString (stub.state fromUserId)),
                       Call.GetState toUserId, Call.GetState (bytesToString (stub.state toUserId))] })) ∨
       ((∀ a ∈ (J.Unmarshal (bytesToString
                        (stub.state (bytesToString (stub.state toUserId))))).assets, a.Name ≠ A) ∧
          transfer_money J stub [fromUserId, toUserId, A, qtyArg] =
                      (.panic "runtime error: index out of range", { stub with log := stub.log ++
                        [Call.GetState fromUserId, Call.GetState (bytesToString (stub.state fromUserId)),
                         Call.GetState toUserId, Call.GetState (bytesToString (stub.state toUserId))] })) ∨
       (∃ preS postS hs preR postR hr,
          (J.Unmarshal (bytesToString (stub.state (bytesToString (stub.state fromUserId))))).assets
              = preS ++ ⟨A, hs⟩ :: postS ∧ (∀ b ∈ postS, b.Name ≠ A) ∧ q.val ≤ hs.val ∧
          (J.Unmarshal (bytesToString (stub.state (bytesToString (stub.state toUserId))))).assets
              = preR ++ ⟨A, hr⟩ :: postR ∧ (∀ b ∈ postR, b.Name ≠ A) ∧
          transfer_money J stub [fromUserId, toUserId, A, qtyArg] =
            (let S := bytesToString (stub.state fromUserId)
             let R := bytesToString (stub.state toUserId)
             let stub4 : ChaincodeStub := { stub with log := stub.log ++
               [Call.GetState fromUserId, Call.GetState S, Call.GetState toUserId, Call.GetState R] }
             let bS := J.Marshal ⟨(J.Unmarshal (bytesToString (stub.state S))).userid,
               preS ++ ⟨A, hs.sub q⟩ :: postS⟩
             let bR := J.Marshal ⟨(J.Unmarshal (bytesToString (stub.state R))).userid,
               preR ++ ⟨A, hr.sub q⟩ :: postR⟩
             if (hr.sub q).val < q.val then (.failure (.New "Insufficient funds"), stub4)
             else
               match PutState stub4 R bR with
               | (some err, stub5) => (.failure err, stub5)
               | (none, stub5) =>
                 match PutState stub5 S bS with
                 | (some err, stub6) => (.failure err, (PutState stub6 R bR).2)
                 | (none, stub6) => (.success, stub6))))) := by
  cases hA : Atoi qtyArg with
  | error e =>
    left; exact ⟨e, by simp [transfer_money, hA], Or.inl rfl⟩
  | ok q =>
    by_cases hq0 : q.val ≤ 0
    · left
      exact ⟨_, by simp [transfer_money, hA, hq0], Or.inr ⟨⟨q, rfl, hq0⟩, rfl⟩⟩
    · right
      have hpos : 0 < q.val := by omega
      refine ⟨q, rfl, hpos, ?_⟩
      cases hg0 : stub.getFault (nGets stub.log) with
      | some t => left; exact ⟨t, by simp [transfer_money, hA, hq0, GetState, hg0]⟩
      | none =>
      right
      cases hg1 : stub.getFault (nGets stub.log + 1) with
      | some t =>
        left; exact ⟨t, by simp [transfer_money, hA, hq0, GetState, hg0, hg1, nGets_append, nGets]⟩
      | none =>
      right
      rcases findAssetIndex_spec A
        (J.Unmarshal (bytesToString (stub.state (bytesToString (stub.state fromUserId))))).assets
        with ⟨hno, hiS⟩ | ⟨preS, a, postS, hl, ha, hpostS, hiS⟩
      · left
        refine ⟨hno, ?_⟩
        simp [transfer_money, hA, hq0, GetState, hg0, hg1, nGets_append, nGets, jsonUnmarshal,
          Slice.elems, Heap.array, hiS]
      · right
        obtain ⟨nm, hs⟩ := a
        simp only at ha
        subst ha
        have hlS : (J.Unmarshal (bytesToString (stub.state (bytesToString (stub.state fromUserId))))).assets[preS.length]?
            = some ⟨nm, hs⟩ := by rw [hl]; exact getElem?_length_append _ _ _
        have hltS := lt_length_of_getElem? _ _ _ hlS
        have hnS : ((preS.length : Int) = -1) = False := by simp
        by_cases hlt : hs.val < q.val
        · left
          refine ⟨preS, postS, hs, hl, hpostS, hlt, ?_⟩
          simp [transfer_money, hA, hq0, GetState, hg0, hg1, nGets_append, nGets, jsonUnmarshal,
            Slice.elems, Heap.array, Slice.index, hiS, hlS, hnS, hltS, hlt]
        · right
          have hhs : q.val ≤ hs.val := by omega
          cases hg2 : stub.getFault (nGets stub.log + 2) with
          | some t =>
            left
            refine ⟨t, ?_⟩
            simp [transfer_money, hA, hq0, GetState, hg0, hg1, hg2, nGets_append, nGets, jsonUnmarshal,
              Slice.elems, Heap.array, Slice.index, hiS, hlS, hnS, hltS, hlt]
          | none =>
          right
          cases hg3 : stub.getFault (nGets stub.log + 3) with
          | some t =>
            left
            refine ⟨t, ?_⟩
            simp [transfer_money, hA, hq0, GetState, hg0, hg1, hg2, hg3, nGets_append, nGets,
              jsonUnmarshal, Slice.elems, Heap.array, Slice.index, hiS, hlS, hnS, hltS, hlt]
          | none =>
          right
          rcases findAssetIndex_spec nm
              (J.Unmarshal (bytesToString (stub.state (bytesToString (stub.state toUserId))))).assets
              with ⟨hnoR, _⟩ | ⟨preR, b, postR, hlR, hb, hpostR, hiR⟩
          · left
            exact ⟨hnoR, transfer_money_new_line_at J stub fromUserId toUserId nm qtyArg q _ _ _
              hA hpos hg0 hg1 hg2 hg3 rfl hiS hlS hhs hnoR⟩
          · right
            obtain ⟨nb, hr⟩ := b
            simp only at hb
            subst hb
            refine ⟨preS, postS, hs, preR, postR, hr, hl, hpostS, hhs, hlR, hpostR, ?_⟩
            exact transfer_money_existing_line J stub fromUserId toUserId nb qtyArg q
                (J.Unmarshal (bytesToString (stub.state (bytesToString (stub.state fromUserId))))).userid
                (J.Unmarshal (bytesToString (stub.state (bytesToString (stub.state toUserId))))).userid
                preS postS preR postR hs hr hA hpos hg0 hg1 hg2 hg3
                (by rw [← hl]) hpostS hhs (by rw [← hlR]) hpostR

theorem GoInt.sub_val (a b : GoInt) (h1 : -9223372036854775808 ≤ a.val - b.val)
    (h2 : a.val - b.val ≤ 9223372036854775807) : (a.sub b).val = a.val - b.val := by
  simp only [GoInt.sub, GoInt.ofInt, wrapInt]
  omega

theorem GoInt.sub_val_of_le (a b : GoInt) (h0 : 0 ≤ b.val) (h : b.val ≤ a.val) :
    (a.sub b).val = a.val - b.val := by
  have := a.property
  exact GoInt.sub_val a b (by omega) (by omega)

/-- Run of `create_user` on a user id that is not a key, when the read is answered and both
writes are accepted. -/
theorem create_user_fresh (J : Json) (stub : ChaincodeStub) (userid accountNum : String)
    (habs : stub.state userid = none)
    (hg : stub.getFault (nGets stub.log) = none)
    (hp0 : stub.putFault (nPuts stub.log) = none)
    (hp1 : stub.putFault (nPuts stub.log + 1) = none) :
    create_user J stub [userid, accountNum] =
      (.success,
       { stub with
         state := fun k =>
           if k = accountNum then some (J.Marshal ⟨userid, [⟨"USD", GoInt.ofInt 10000⟩]⟩)
           else if k = userid then some accountNum else stub.state k,
         log := stub.log ++ [Call.GetState userid, Call.PutState userid accountNum,
           Call.PutState accountNum (J.Marshal ⟨userid, [⟨"USD", GoInt.ofInt 10000⟩]⟩)] }) := by
  simp [create_user, GetState, PutState, hg, hp0, hp1, habs, nPuts_append, nPuts, goAppend,
    jsonMarshal, Slice.elems, Heap.array]

/-- Run of `transfer_money` when the sender's record has no line named `A`. -/
theorem transfer_money_not_held (J : Json) (stub : ChaincodeStub)
    (fromUserId toUserId A qtyArg : String) (q : GoInt)
    (hq : Atoi qtyArg = .ok q) (hpos : 0 < q.val)
    (hg0 : stub.getFault (nGets stub.log) = none)
    (hg1 : stub.getFault (nGets stub.log + 1) = none)
    (hno : ∀ a ∈ (J.Unmarshal (bytesToString
      (stub.state (bytesToString (stub.state fromUserId))))).assets, a.Name ≠ A) :
    transfer_money J stub [fromUserId, toUserId, A, qtyArg]
      = (.failure (.New "Sender does not hold any unit(s) of this asset"),
         { stub with log := stub.log ++
           [Call.GetState fromUserId, Call.GetState (bytesToString (stub.state fromUserId))] }) := by
  have hq' : ¬ q.val ≤ 0 := by omega
  simp [transfer_money, hq, hq', GetState, hg0, hg1, nGets_append, nGets, jsonUnmarshal,
    Slice.elems, Heap.array, findAssetIndex_none A _ hno]

/-- Run of `transfer_money` when the sender's line found for `A` holds less than `q`. -/
theorem transfer_money_sender_short (J : Json) (stub : ChaincodeStub)
    (fromUserId toUserId A qtyArg : String) (q : GoInt)
    (recS : Record) (iS : Nat) (lineS : Asset)
    (hq : Atoi qtyArg = .ok q) (hpos : 0 < q.val)
    (hg0 : stub.getFault (nGets stub.log) = none)
    (hg1 : stub.getFault (nGets stub.log + 1) = none)
    (hS : J.Unmarshal (bytesToString (stub.state (bytesToString (stub.state fromUserId)))) = recS)
    (hiS : findAssetIndex recS.assets A = iS) (hlS : recS.assets[iS]? = some lineS)
    (hlt : lineS.Qty.val < q.val) :
    transfer_money J stub [fromUserId, toUserId, A, qtyArg]
      = (.failure (.New "Insufficient funds"),
         { stub with log := stub.log ++
           [Call.GetState fromUserId, Call.GetState (bytesToString (stub.state fromUserId))] }) := by
  have hq' : ¬ q.val ≤ 0 := by omega
  have hltS := lt_length_of_getElem? _ _ _ hlS
  have hnS : ((iS : Int) = -1) = False := by simp
  simp [transfer_money, hq, hq', GetState, hg0, hg1, nGets_append, nGets, jsonUnmarshal,
    Slice.elems, Heap.array, Slice.index, hS, hiS, hlS, hnS, hltS, hlt]

/-- After the quantity check has passed, the first thing `transfer_money` does is to read the
sender's user id from the ledger. -/
theorem transfer_money_reads_first (J : Json) (stub : ChaincodeStub)
    (fromUserId toUserId A qtyArg : String) (q : GoInt)
    (hq : Atoi qtyArg = .ok q) (hpos : 0 < q.val) :
    ∃ rest, (transfer_money J stub [fromUserId, toUserId, A, qtyArg]).2.log
      = stub.log ++ Call.GetState fromUserId :: rest := by
  have hp : stub.log ++ [Call.GetState fromUserId]
      <+: (transfer_money J stub [fromUserId, toUserId, A, qtyArg]).2.log := by
    rcases transfer_money_cases J stub fromUserId toUserId A qtyArg with
      ⟨e, _, h | ⟨⟨q', hq', hle⟩, _⟩⟩ | ⟨q', _, _, h⟩
    · rw [hq] at h; cases h
    · rw [hq] at hq'; cases hq'; omega
    · rcases h with ⟨t, h⟩ | ⟨t, h⟩ | ⟨_, h⟩ | ⟨_, _, _, _, _, _, h⟩ | ⟨t, h⟩ | ⟨t, h⟩ | ⟨_, h⟩ |
        ⟨_, _, _, _, _, _, _, _, _, _, _, h⟩
      · rw [h]
      · rw [h]; simp
      · rw [h]; simp
      · rw [h]; simp
      · rw [h]; simp
      · rw [h]; simp
      · rw [h]; simp
      · rw [h]
        split_ifs
        · simp
        · cases hp0 : stub.putFault (nPuts stub.log) with
          | some t => simp [PutState, nPuts_append, nPuts, hp0]
          | none =>
            cases hp1 : stub.putFault (nPuts stub.log + 1) with
            | some t =>
              cases hp2 : stub.putFault (nPuts stub.log + 2) <;>
                simp [PutState, nPuts_append, nPuts, hp0, hp1, hp2]
            | none => simp [PutState, nPuts_append, nPuts, hp0, hp1]
  obtain ⟨t, ht⟩ := hp
  exact ⟨t, by rw [← ht]; simp⟩

/-- Run of `transfer_money` when the recipient's write is accepted, the sender's write is
refused and the compensating write is accepted: the ledger ends with the debited recipient
record under `R`, because the compensating write carries the same text as the first write. -/
theorem transfer_money_sender_write_refused (J : Json) (stub : ChaincodeStub)
    (fromUserId toUserId A qtyArg : String) (q : GoInt)
    (uS uR : String) (preS postS preR postR : List Asset) (hs hr : GoInt) (t : String)
    (hq : Atoi qtyArg = .ok q) (hpos : 0 < q.val)
    (hget : ∀ n, stub.getFault n = none)
    (hS : J.Unmarshal (bytesToString (stub.state (bytesToString (stub.state fromUserId))))
      = ⟨uS, preS ++ ⟨A, hs⟩ :: postS⟩)
    (hpostS : ∀ b ∈ postS, b.Name ≠ A) (hhs : q.val ≤ hs.val)
    (hR : J.Unmarshal (bytesToString (stub.state (bytesToString (stub.state toUserId))))
      = ⟨uR, preR ++ ⟨A, hr⟩ :: postR⟩)
    (hpostR : ∀ b ∈ postR, b.Name ≠ A) (hre : q.val ≤ (hr.sub q).val)
    (hp0 : stub.putFault (nPuts stub.log) = none)
    (hp1 : stub.putFault (nPuts stub.log + 1) = some t)
    (hp2 : stub.putFault (nPuts stub.log + 2) = none) :
    transfer_money J stub [fromUserId, toUserId, A, qtyArg] =
      (.failure (.Ledger t),
       { stub with
         state := fun k =>
           if k = bytesToString (stub.state toUserId)
           then some (J.Marshal ⟨uR, preR ++ ⟨A, hr.sub q⟩ :: postR⟩) else stub.state k,
         log := stub.log ++
           [Call.GetState fromUserId, Call.GetState (bytesToString (stub.state fromUserId)),
            Call.GetState toUserId, Call.GetState (bytesToString (stub.state toUserId)),
            Call.PutState (bytesToString (stub.state toUserId))
              (J.Marshal ⟨uR, preR ++ ⟨A, hr.sub q⟩ :: postR⟩),
            Call.PutState (bytesToString (stub.state fromUserId))
              (J.Marshal ⟨uS, preS ++ ⟨A, hs.sub q⟩ :: postS⟩),
            Call.PutState (bytesToString (stub.state toUserId))
              (J.Marshal ⟨uR, preR ++ ⟨A, hr.sub q⟩ :: postR⟩)] }) := by
  have hre' : ¬ (hr.sub q).val < q.val := by omega
  rw [transfer_money_existing_line J stub fromUserId toUserId A qtyArg q uS uR
    preS postS preR postR hs hr hq hpos (hget _) (hget _) (hget _) (hget _) hS hpostS hhs hR hpostR]
  simp [hre', PutState, nPuts_append, nPuts, hp0, hp1, hp2]
  funext k
  by_cases hk : k = bytesToString (stub.state toUserId) <;> simp [hk]

/-! ## Claims -/

/-- C1 (the code fails it).  At a ledger where the sender holds 10000 USD and the recipient has
no USD line, `transfer_money(alice, bob, "USD", "2500")` does not return success: the new line
is appended, the index stays `-1`, the re-check reads `Assets[-1]` and the call panics after
its four reads, without any write. -/
theorem C1_new_line_transfer_panics :
    jsonStd.Unmarshal (recordText "alice" "USD" "10000") = ⟨"alice", [⟨"USD", GoInt.ofInt 10000⟩]⟩ ∧
    jsonStd.Unmarshal (recordText "bob" "EUR" "5") = ⟨"bob", [⟨"EUR", GoInt.ofInt 5⟩]⟩ ∧
    (transfer_money jsonStd ledgerNoUsdLine ["alice", "bob", "USD", "2500"]).1
      = .panic "runtime error: index out of range" ∧
    (transfer_money jsonStd ledgerNoUsdLine ["alice", "bob", "USD", "2500"]).2.log
      = [Call.GetState "alice", Call.GetState "A1", Call.GetState "bob", Call.GetState "A2"] ∧
    (transfer_money jsonStd ledgerNoUsdLine ["alice", "bob", "USD", "2500"]).2.state "A2"
      = some (recordText "bob" "EUR" "5") := by
  decide

/-- C2 (the code fails it).  When the recipient's write succeeds and the sender's write is
refused, the compensating write stores the debited recipient record again (7500 USD), not the
pre-transfer record (10000 USD): the old record shares its backing array with the updated one.
The sender's record is unchanged and the sender-write error is returned. -/
theorem C2_rollback_restores_nothing :
    ledgerSecondWriteFails.state "A2" = some (recordText "bob" "USD" "10000") ∧
    (transfer_money jsonStd ledgerSecondWriteFails ["alice", "bob", "USD", "2500"]).1
      = .failure (.Ledger "write refused") ∧
    (transfer_money jsonStd ledgerSecondWriteFails ["alice", "bob", "USD", "2500"]).2.log
      = [Call.GetState "alice", Call.GetState "A1", Call.GetState "bob", Call.GetState "A2",
         Call.PutState "A2" (recordText "bob" "USD" "7500"),
         Call.PutState "A1" (recordText "alice" "USD" "7500"),
         Call.PutState "A2" (recordText "bob" "USD" "7500")] ∧
    (transfer_money jsonStd ledgerSecondWriteFails ["alice", "bob", "USD", "2500"]).2.state "A2"
      = some (recordText "bob" "USD" "7500") ∧
    jsonStd.Unmarshal (recordText "bob" "USD" "7500") = ⟨"bob", [⟨"USD", GoInt.ofInt 7500⟩]⟩ ∧
    jsonStd.Unmarshal (recordText "bob" "USD" "10000") = ⟨"bob", [⟨"USD", GoInt.ofInt 10000⟩]⟩ ∧
    (transfer_money jsonStd ledgerSecondWriteFails ["alice", "bob", "USD", "2500"]).2.state "A1"
      = some (recordText "alice" "USD" "10000") := by
  decide

/-- C3.  Existing-line path: with distinct accounts `S` and `R`, the sender's (last) line for
`A` at `hs ≥ q`, the recipient's at `hr ≥ 2q`, `q > 0`, every read answered and every write
accepted, `transfer_money` succeeds and stores `S` with that line at `hs - q` and `R` with that
line at `hr - q`.  In particular, after `create_user(alice, A1)` and `create_user(bob, A2)` on
a ledger where neither user exists, `transfer_money(alice, bob, "USD", "2500")` leaves both
`A1` and `A2` with the single line USD 7500. -/
theorem C3_existing_line_debits_both (J : Json) (stub : ChaincodeStub)
    (fromUserId toUserId A qtyArg S R : String) (bS bR : Bytes) (q hs hr : GoInt)
    (uS uR : String) (preS postS preR postR : List Asset)
    (hq : Atoi qtyArg = .ok q) (hpos : 0 < q.val)
    (hget : ∀ n, stub.getFault n = none) (hput : ∀ n, stub.putFault n = none)
    (hfrom : stub.state fromUserId = some S) (hto : stub.state toUserId = some R) (hSR : S ≠ R)
    (hbS : stub.state S = some bS) (hbR : stub.state R = some bR)
    (hS : J.Unmarshal bS = ⟨uS, preS ++ ⟨A, hs⟩ :: postS⟩) (hpostS : ∀ b ∈ postS, b.Name ≠ A)
    (hR : J.Unmarshal bR = ⟨uR, preR ++ ⟨A, hr⟩ :: postR⟩) (hpostR : ∀ b ∈ postR, b.Name ≠ A)
    (hhs : q.val ≤ hs.val) (hhr : 2 * q.val ≤ hr.val)
    (hseedA : J.Unmarshal (J.Marshal ⟨"alice", [⟨"USD", GoInt.ofInt 10000⟩]⟩)
      = ⟨"alice", [⟨"USD", GoInt.ofInt 10000⟩]⟩)
    (hseedB : J.Unmarshal (J.Marshal ⟨"bob", [⟨"USD", GoInt.ofInt 10000⟩]⟩)
      = ⟨"bob", [⟨"USD", GoInt.ofInt 10000⟩]⟩) :
    ((transfer_money J stub [fromUserId, toUserId, A, qtyArg]).1 = .success ∧
     (transfer_money J stub [fromUserId, toUserId, A, qtyArg]).2.state S
       = some (J.Marshal ⟨uS, preS ++ ⟨A, hs.sub q⟩ :: postS⟩) ∧
     (transfer_money J stub [fromUserId, toUserId, A, qtyArg]).2.state R
       = some (J.Marshal ⟨uR, preR ++ ⟨A, hr.sub q⟩ :: postR⟩) ∧
     (hs.sub q).val = hs.val - q.val ∧ (hr.sub q).val = hr.val - q.val) ∧
    (∀ stub0 : ChaincodeStub, (∀ n, stub0.getFault n = none) → (∀ n, stub0.putFault n = none) →
      stub0.state "alice" = none → stub0.state "bob" = none →
      (create_user J stub0 ["alice", "A1"]).1 = .success ∧
      (create_user J (create_user J stub0 ["alice", "A1"]).2 ["bob", "A2"]).1 = .success ∧
      (transfer_money J (create_user J (create_user J stub0 ["alice", "A1"]).2 ["bob", "A2"]).2
        ["alice", "bob", "USD", "2500"]).1 = .success ∧
      (transfer_money J (create_user J (create_user J stub0 ["alice", "A1"]).2 ["bob", "A2"]).2
        ["alice", "bob", "USD", "2500"]).2.state "A1"
        = some (J.Marshal ⟨"alice", [⟨"USD", GoInt.ofInt 7500⟩]⟩) ∧
      (transfer_money J (create_user J (create_user J stub0 ["alice", "A1"]).2 ["bob", "A2"]).2
        ["alice", "bob", "USD", "2500"]).2.state "A2"
        = some (J.Marshal ⟨"bob", [⟨"USD", GoInt.ofInt 7500⟩]⟩)) := by
  have key : ∀ (stub : ChaincodeStub) (fromUserId toUserId A qtyArg S R : String) (bS bR : Bytes)
      (q hs hr : GoInt) (uS uR : String) (preS postS preR postR : List Asset),
      Atoi qtyArg = .ok q → 0 < q.val →
      (∀ n, stub.getFault n = none) → (∀ n, stub.putFault n = none) →
      stub.state fromUserId = some S → stub.state toUserId = some R → S ≠ R →
      stub.state S = some bS → stub.state R = some bR →
      J.Unmarshal bS = ⟨uS, preS ++ ⟨A, hs⟩ :: postS⟩ → (∀ b ∈ postS, b.Name ≠ A) →
      J.Unmarshal bR = ⟨uR, preR ++ ⟨A, hr⟩ :: postR⟩ → (∀ b ∈ postR, b.Name ≠ A) →
      q.val ≤ hs.val → 2 * q.val ≤ hr.val →
      ((transfer_money J stub [fromUserId, toUserId, A, qtyArg]).1 = .success ∧
       (transfer_money J stub [fromUserId, toUserId, A, qtyArg]).2.state S
         = some (J.Marshal ⟨uS, preS ++ ⟨A, hs.sub q⟩ :: postS⟩) ∧
       (transfer_money J stub [fromUserId, toUserId, A, qtyArg]).2.state R
         = some (J.Marshal ⟨uR, preR ++ ⟨A, hr.sub q⟩ :: postR⟩) ∧
       (hs.sub q).val = hs.val - q.val ∧ (hr.sub q).val = hr.val - q.val) := by
    intro stub fromUserId toUserId A qtyArg S R bS bR q hs hr uS uR preS postS preR postR
      hq hpos hget hput hfrom hto hSR hbS hbR hS hpostS hR hpostR hhs hhr
    have hsv : (hs.sub q).val = hs.val - q.val := GoInt.sub_val_of_le hs q (by omega) hhs
    have hrv : (hr.sub q).val = hr.val - q.val := GoInt.sub_val_of_le hr q (by omega) (by omega)
    have hre : ¬ (hr.sub q).val < q.val := by rw [hrv]; omega
    have hrun := transfer_money_existing_line J stub fromUserId toUserId A qtyArg q uS uR
      preS postS preR postR hs hr hq hpos (hget _) (hget _) (hget _) (hget _)
      (by simp [hfrom, hbS, bytesToString, hS]) hpostS hhs
      (by simp [hto, hbR, bytesToString, hR]) hpostR
    rw [hrun]
    simp [hre, PutState, hput, hfrom, hto, bytesToString, hSR]
    exact ⟨fun h => absurd h.symm hSR, hsv, hrv⟩
  refine ⟨key stub fromUserId toUserId A qtyArg S R bS bR q hs hr uS uR preS postS preR postR
    hq hpos hget hput hfrom hto hSR hbS hbR hS hpostS hR hpostR hhs hhr, ?_⟩
  intro stub0 hget0 hput0 ha hb
  have h1 := create_user_fresh J stub0 "alice" "A1" ha (hget0 _) (hput0 _) (hput0 _)
  have h2 := create_user_fresh J (create_user J stub0 ["alice", "A1"]).2 "bob" "A2"
    (by rw [h1]; simp [hb]) (by rw [h1]; exact hget0 _) (by rw [h1]; exact hput0 _)
    (by rw [h1]; exact hput0 _)
  have h3 := key (create_user J (create_user J stub0 ["alice", "A1"]).2 ["bob", "A2"]).2
    "alice" "bob" "USD" "2500" "A1" "A2"
    (J.Marshal ⟨"alice", [⟨"USD", GoInt.ofInt 10000⟩]⟩) (J.Marshal ⟨"bob", [⟨"USD", GoInt.ofInt 10000⟩]⟩)
    (GoInt.ofInt 2500) (GoInt.ofInt 10000) (GoInt.ofInt 10000) "alice" "bob" [] [] [] []
    (by rfl) (by decide)
    (by rw [h2, h1]; exact hget0) (by rw [h2, h1]; exact hput0)
    (by rw [h2, h1]; simp) (by rw [h2, h1]; simp) (by decide)
    (by rw [h2, h1]; simp) (by rw [h2, h1]; simp)
    hseedA (by simp) hseedB (by simp) (by decide) (by decide)
  refine ⟨by rw [h1], by rw [h2], h3.1, ?_, ?_⟩
  · rw [h3.2.1]; rfl
  · rw [h3.2.2.1]; rfl

/-- C4.  Insufficient funds: when `fromUserId` resolves to account `S` whose record's line for
`A` (the last, in particular the only, line of that name) holds `h < q`, with `q > 0` and the
reads answered, `transfer_money` returns the error "Insufficient funds" after its first two
reads; it makes no `PutState` call and the ledger state is unchanged. -/
theorem C4_insufficient_funds (J : Json) (stub : ChaincodeStub)
    (fromUserId toUserId A qtyArg S : String) (bS : Bytes) (q h : GoInt)
    (u : String) (pre post : List Asset)
    (hq : Atoi qtyArg = .ok q) (hpos : 0 < q.val)
    (hget : ∀ n, stub.getFault n = none)
    (hfrom : stub.state fromUserId = some S) (hbS : stub.state S = some bS)
    (hS : J.Unmarshal bS = ⟨u, pre ++ ⟨A, h⟩ :: post⟩) (hpost : ∀ b ∈ post, b.Name ≠ A)
    (hlt : h.val < q.val) :
    (transfer_money J stub [fromUserId, toUserId, A, qtyArg]).1
      = .failure (.New "Insufficient funds") ∧
    (transfer_money J stub [fromUserId, toUserId, A, qtyArg]).2.state = stub.state ∧
    (transfer_money J stub [fromUserId, toUserId, A, qtyArg]).2.log
      = stub.log ++ [Call.GetState fromUserId, Call.GetState S] ∧
    nPuts (transfer_money J stub [fromUserId, toUserId, A, qtyArg]).2.log = nPuts stub.log := by
  have hrun := transfer_money_sender_short J stub fromUserId toUserId A qtyArg q
    ⟨u, pre ++ ⟨A, h⟩ :: post⟩ pre.length ⟨A, h⟩ hq hpos (hget _) (hget _)
    (by simp [hfrom, hbS, bytesToString, hS])
    (findAssetIndex_last A pre ⟨A, h⟩ post rfl hpost) (getElem?_length_append _ _ _) hlt
  rw [hrun]
  simp [hfrom, bytesToString, nPuts_append, nPuts]

/-- C5.  Asset not held: when `fromUserId` resolves to account `S` whose record has no line
named `A`, with `q > 0` and the reads answered, `transfer_money` returns the error "Sender does
not hold any unit(s) of this asset" after its first two reads, and the ledger state is
unchanged. -/
theorem C5_asset_not_held (J : Json) (stub : ChaincodeStub)
    (fromUserId toUserId A qtyArg S : String) (bS : Bytes) (q : GoInt)
    (hq : Atoi qtyArg = .ok q) (hpos : 0 < q.val)
    (hget : ∀ n, stub.getFault n = none)
    (hfrom : stub.state fromUserId = some S) (hbS : stub.state S = some bS)
    (hno : ∀ a ∈ (J.Unmarshal bS).assets, a.Name ≠ A) :
    (transfer_money J stub [fromUserId, toUserId, A, qtyArg]).1
      = .failure (.New "Sender does not hold any unit(s) of this asset") ∧
    (transfer_money J stub [fromUserId, toUserId, A, qtyArg]).2.state = stub.state ∧
    (transfer_money J stub [fromUserId, toUserId, A, qtyArg]).2.log
      = stub.log ++ [Call.GetState fromUserId, Call.GetState S] := by
  have hrun := transfer_money_not_held J stub fromUserId toUserId A qtyArg q hq hpos
    (hget _) (hget _) (by simpa [hfrom, hbS, bytesToString] using hno)
  rw [hrun]
  simp [hfrom, bytesToString]

/-- C6.  Quantity check: when `strconv.Atoi` rejects the quantity string, `transfer_money`
returns that `NumError`; when the string parses to an integer `≤ 0` it returns "Invalid Amount.
Amount should be greater than 0"; in both cases the stub is left exactly as it was (no read, no
write).  The call goes on to its first ledger read exactly when the string parses to an
integer `> 0`.  The strings "0" and "-5" are rejected. -/
theorem C6_quantity_check (J : Json) (stub : ChaincodeStub)
    (fromUserId toUserId A qtyArg : String) :
    (∀ e, Atoi qtyArg = .error e →
      (∃ text, e = .NumError qtyArg text) ∧
      transfer_money J stub [fromUserId, toUserId, A, qtyArg] = (.failure e, stub)) ∧
    (∀ q, Atoi qtyArg = .ok q → q.val ≤ 0 →
      transfer_money J stub [fromUserId, toUserId, A, qtyArg]
        = (.failure (.New "Invalid Amount. Amount should be greater than 0"), stub)) ∧
    ((∃ rest, (transfer_money J stub [fromUserId, toUserId, A, qtyArg]).2.log
        = stub.log ++ Call.GetState fromUserId :: rest) ↔
      ∃ q, Atoi qtyArg = .ok q ∧ 0 < q.val) ∧
    transfer_money J stub [fromUserId, toUserId, A, "0"]
      = (.failure (.New "Invalid Amount. Amount should be greater than 0"), stub) ∧
    transfer_money J stub [fromUserId, toUserId, A, "-5"]
      = (.failure (.New "Invalid Amount. Amount should be greater than 0"), stub) := by
  have hbad : ∀ (s : String) (q : GoInt), Atoi s = .ok q → q.val ≤ 0 →
      transfer_money J stub [fromUserId, toUserId, A, s]
        = (.failure (.New "Invalid Amount. Amount should be greater than 0"), stub) := by
    intro s q hq hle
    simp [transfer_money, hq, hle]
  refine ⟨?_, hbad qtyArg, ?_, ?_, ?_⟩
  · intro e he
    refine ⟨?_, by simp [transfer_money, he]⟩
    unfold Atoi at he
    split at he
    · cases he; exact ⟨_, rfl⟩
    · split at he
      · cases he
      · cases he; exact ⟨_, rfl⟩
  · constructor
    · rintro ⟨rest, hrest⟩
      cases hA : Atoi qtyArg with
      | error e =>
        have h : transfer_money J stub [fromUserId, toUserId, A, qtyArg] = (.failure e, stub) := by
          simp [transfer_money, hA]
        rw [h] at hrest
        have := congrArg List.length hrest
        simp at this
      | ok q =>
        by_cases hle : q.val ≤ 0
        · rw [hbad qtyArg q hA hle] at hrest
          have := congrArg List.length hrest
          simp at this
        · exact ⟨q, rfl, by omega⟩
    · rintro ⟨q, hq, hpos⟩
      exact transfer_money_reads_first J stub fromUserId toUserId A qtyArg q hq hpos
  · exact hbad "0" (GoInt.ofInt 0) (by rfl) (by decide)
  · exact hbad "-5" (GoInt.ofInt (-5)) (by rfl) (by decide)

/-- C7.  Duplicate user: if `create_user(userId, accountId1)` returned success, a following
`create_user(userId, accountId2)` (whose read the ledger answers) returns the error "userid
already used." after that one read, and the ledger state is exactly as the first call left
it. -/
theorem C7_duplicate_user_rejected (J : Json) (stub : ChaincodeStub)
    (userId accountId1 accountId2 : String)
    (hget : ∀ n, stub.getFault n = none)
    (h1 : (create_user J stub [userId, accountId1]).1 = .success) :
    (create_user J (create_user J stub [userId, accountId1]).2 [userId, accountId2]).1
      = .failure (.New "userid already used.") ∧
    (create_user J (create_user J stub [userId, accountId1]).2 [userId, accountId2]).2.state
      = (create_user J stub [userId, accountId1]).2.state ∧
    (create_user J (create_user J stub [userId, accountId1]).2 [userId, accountId2]).2.log
      = (create_user J stub [userId, accountId1]).2.log ++ [Call.GetState userId] := by
  cases hst : stub.state userId with
  | some v => simp [create_user, GetState, hget, hst] at h1
  | none =>
    cases hp0 : stub.putFault (nPuts stub.log) with
    | some t =>
      simp [create_user, GetState, PutState, hget, hst, hp0, nPuts_append, nPuts] at h1
    | none =>
      cases hp1 : stub.putFault (nPuts stub.log + 1) with
      | some t =>
        simp [create_user, GetState, PutState, hget, hst, hp0, hp1, nPuts_append, nPuts] at h1
      | none =>
        rw [create_user_fresh J stub userId accountId1 hst (hget _) hp0 hp1]
        by_cases hk : userId = accountId1
        · simp [create_user, GetState, hget, hk]
        · simp [create_user, GetState, hget, hk]

/-- C8 as stated fails: with the account id equal to the user id, `create_user("u", "u")` on
the empty ledger succeeds, and the value under the key "u" is then the Account Record text,
not the raw account id "u". -/
theorem C8_counterexample_same_key :
    ledgerEmpty.state "u" = none ∧
    (create_user jsonStd ledgerEmpty ["u", "u"]).1 = .success ∧
    (create_user jsonStd ledgerEmpty ["u", "u"]).2.log
      = [Call.GetState "u", Call.PutState "u" "u", Call.PutState "u" (recordText "u" "USD" "10000")] ∧
    (create_user jsonStd ledgerEmpty ["u", "u"]).2.state "u" = some (recordText "u" "USD" "10000") ∧
    (create_user jsonStd ledgerEmpty ["u", "u"]).2.state "u" ≠ some "u" := by
  decide

/-- C8 (amended).  When the key `userId` is absent, `accountId` differs from `userId`, the read
is answered and both writes are accepted, `create_user(userId, accountId)` returns success;
afterwards the value under `userId` is the raw string `accountId` and the value under
`accountId` is the text of the record with user id `userId` and the single line USD 10000,
which decodes to that record. -/
theorem C8_create_user_seeds_account (J : Json) (stub : ChaincodeStub) (userId accountId : String)
    (habs : stub.state userId = none) (hne : accountId ≠ userId)
    (hg : stub.getFault (nGets stub.log) = none)
    (hp0 : stub.putFault (nPuts stub.log) = none)
    (hp1 : stub.putFault (nPuts stub.log + 1) = none)
    (hrt : J.Unmarshal (J.Marshal ⟨userId, [⟨"USD", GoInt.ofInt 10000⟩]⟩)
      = ⟨userId, [⟨"USD", GoInt.ofInt 10000⟩]⟩) :
    (create_user J stub [userId, accountId]).1 = .success ∧
    (create_user J stub [userId, accountId]).2.state userId = some accountId ∧
    bytesToString ((create_user J stub [userId, accountId]).2.state userId) = accountId ∧
    (create_user J stub [userId, accountId]).2.state accountId
      = some (J.Marshal ⟨userId, [⟨"USD", GoInt.ofInt 10000⟩]⟩) ∧
    ((create_user J stub [userId, accountId]).2.state accountId).map J.Unmarshal
      = some ⟨userId, [⟨"USD", GoInt.ofInt 10000⟩]⟩ ∧
    (GoInt.ofInt 10000).val = 10000 := by
  rw [create_user_fresh J stub userId accountId habs hg hp0 hp1]
  have hne' : ¬ userId = accountId := fun h => hne h.symm
  refine ⟨rfl, by simp [hne'], by simp [hne', bytesToString], by simp, by simp [hrt], by decide⟩

/-- Witness of C8 (amended): `create_user(alice, A1)` on the empty ledger. -/
theorem C8_create_user_seeds_account_witness :
    (ledgerEmpty.state "alice" = none ∧ "A1" ≠ "alice" ∧
      ledgerEmpty.getFault (nGets ledgerEmpty.log) = none ∧
      ledgerEmpty.putFault (nPuts ledgerEmpty.log) = none ∧
      ledgerEmpty.putFault (nPuts ledgerEmpty.log + 1) = none ∧
      jsonStd.Unmarshal (jsonStd.Marshal ⟨"alice", [⟨"USD", GoInt.ofInt 10000⟩]⟩)
        = ⟨"alice", [⟨"USD", GoInt.ofInt 10000⟩]⟩) ∧
    ((create_user jsonStd ledgerEmpty ["alice", "A1"]).1 = .success ∧
      (create_user jsonStd ledgerEmpty ["alice", "A1"]).2.state "alice" = some "A1" ∧
      bytesToString ((create_user jsonStd ledgerEmpty ["alice", "A1"]).2.state "alice") = "A1" ∧
      (create_user jsonStd ledgerEmpty ["alice", "A1"]).2.state "A1"
        = some (jsonStd.Marshal ⟨"alice", [⟨"USD", GoInt.ofInt 10000⟩]⟩) ∧
      ((create_user jsonStd ledgerEmpty ["alice", "A1"]).2.state "A1").map jsonStd.Unmarshal
        = some ⟨"alice", [⟨"USD", GoInt.ofInt 10000⟩]⟩ ∧
      (GoInt.ofInt 10000).val = 10000) :=
  ⟨⟨by decide, by decide, by decide, by decide, by decide, by decide⟩,
   C8_create_user_seeds_account jsonStd ledgerEmpty "alice" "A1" (by decide) (by decide)
     (by decide) (by decide) (by decide) (by decide)⟩

/-- C9 as stated fails: there is no not-found error.  On a ledger where "carol" is not a key,
a transfer from "carol" returns the asset-not-held error, and a transfer to "carol" panics. -/
theorem C9_counterexample_unknown_user :
    ledgerTwoUsers.state "carol" = none ∧
    (transfer_money jsonStd ledgerTwoUsers ["carol", "bob", "USD", "5"]).1
      = .failure (.New "Sender does not hold any unit(s) of this asset") ∧
    (transfer_money jsonStd ledgerTwoUsers ["alice", "carol", "USD", "5"]).1
      = .panic "runtime error: index out of range" := by
  decide

/-- C9 (amended).  When `fromUserId` is not a key of the ledger and the record read under the
empty key (the zero record when that key is absent too) has no line named `A`, with `q > 0`
and the reads answered, `transfer_money` returns the error "Sender does not hold any unit(s) of
this asset" after reading `fromUserId` and the empty key, and the ledger state is unchanged. -/
theorem C9_unknown_sender_is_not_held (J : Json) (stub : ChaincodeStub)
    (fromUserId toUserId A qtyArg : String) (q : GoInt)
    (hq : Atoi qtyArg = .ok q) (hpos : 0 < q.val)
    (hget : ∀ n, stub.getFault n = none)
    (habs : stub.state fromUserId = none)
    (hno : ∀ a ∈ (J.Unmarshal (bytesToString (stub.state ""))).assets, a.Name ≠ A) :
    (transfer_money J stub [fromUserId, toUserId, A, qtyArg]).1
      = .failure (.New "Sender does not hold any unit(s) of this asset") ∧
    (transfer_money J stub [fromUserId, toUserId, A, qtyArg]).2.state = stub.state ∧
    (transfer_money J stub [fromUserId, toUserId, A, qtyArg]).2.log
      = stub.log ++ [Call.GetState fromUserId, Call.GetState ""] := by
  have hrun := transfer_money_not_held J stub fromUserId toUserId A qtyArg q hq hpos
    (hget _) (hget _) (by simpa [habs, bytesToString] using hno)
  rw [hrun]
  simp [habs, bytesToString]

/-- Witness of C9 (amended): a transfer from the unknown user "carol". -/
theorem C9_unknown_sender_is_not_held_witness :
    (Atoi "5" = .ok (GoInt.ofInt 5) ∧ 0 < (GoInt.ofInt 5).val ∧
      (∀ n, ledgerTwoUsers.getFault n = none) ∧ ledgerTwoUsers.state "carol" = none ∧
      (∀ a ∈ (jsonStd.Unmarshal (bytesToString (ledgerTwoUsers.state ""))).assets, a.Name ≠ "USD")) ∧
    ((transfer_money jsonStd ledgerTwoUsers ["carol", "bob", "USD", "5"]).1
        = .failure (.New "Sender does not hold any unit(s) of this asset") ∧
      (transfer_money jsonStd ledgerTwoUsers ["carol", "bob", "USD", "5"]).2.state
        = ledgerTwoUsers.state ∧
      (transfer_money jsonStd ledgerTwoUsers ["carol", "bob", "USD", "5"]).2.log
        = ledgerTwoUsers.log ++ [Call.GetState "carol", Call.GetState ""]) :=
  ⟨⟨by rfl, by decide, fun _ => rfl, by decide, by decide⟩,
   C9_unknown_sender_is_not_held jsonStd ledgerTwoUsers "carol" "bob" "USD" "5" (GoInt.ofInt 5)
     (by rfl) (by decide) (fun _ => rfl) (by decide) (by decide)⟩

/-- C10.  Non-negativity is kept by a successful transfer: if every line of the sender's and
of the recipient's record (as read from the ledger) has quantity `≥ 0` and `transfer_money`
returns success, then the call wrote exactly two records, the recipient's and then the
sender's, every line of both written records has quantity `≥ 0`, and they are what the ledger
holds under the two account ids afterwards.  The record `create_user` writes on success has
only lines of quantity `≥ 0` as well. -/
theorem C10_quantities_stay_non_negative (J : Json) (stub : ChaincodeStub)
    (fromUserId toUserId A qtyArg : String)
    (hS : ∀ a ∈ (J.Unmarshal (bytesToString
      (stub.state (bytesToString (stub.state fromUserId))))).assets, 0 ≤ a.Qty.val)
    (hR : ∀ a ∈ (J.Unmarshal (bytesToString
      (stub.state (bytesToString (stub.state toUserId))))).assets, 0 ≤ a.Qty.val)
    (hok : (transfer_money J stub [fromUserId, toUserId, A, qtyArg]).1 = .success) :
    (∃ newS newR : Record,
      (transfer_money J stub [fromUserId, toUserId, A, qtyArg]).2.log
        = stub.log ++ [Call.GetState fromUserId, Call.GetState (bytesToString (stub.state fromUserId)),
            Call.GetState toUserId, Call.GetState (bytesToString (stub.state toUserId)),
            Call.PutState (bytesToString (stub.state toUserId)) (J.Marshal newR),
            Call.PutState (bytesToString (stub.state fromUserId)) (J.Marshal newS)] ∧
      (∀ a ∈ newS.assets, 0 ≤ a.Qty.val) ∧ (∀ a ∈ newR.assets, 0 ≤ a.Qty.val) ∧
      (transfer_money J stub [fromUserId, toUserId, A, qtyArg]).2.state
          (bytesToString (stub.state fromUserId)) = some (J.Marshal newS) ∧
      (bytesToString (stub.state toUserId) ≠ bytesToString (stub.state fromUserId) →
        (transfer_money J stub [fromUserId, toUserId, A, qtyArg]).2.state
          (bytesToString (stub.state toUserId)) = some (J.Marshal newR))) ∧
    (∀ (stub0 : ChaincodeStub) (userId accountId : String),
      (create_user J stub0 [userId, accountId]).1 = .success →
      ∃ seed : Record,
        (create_user J stub0 [userId, accountId]).2.log
          = stub0.log ++ [Call.GetState userId, Call.PutState userId accountId,
              Call.PutState accountId (J.Marshal seed)] ∧
        (create_user J stub0 [userId, accountId]).2.state accountId = some (J.Marshal seed) ∧
        ∀ a ∈ seed.assets, 0 ≤ a.Qty.val) := by
  constructor
  · rcases transfer_money_cases J stub fromUserId toUserId A qtyArg with
      ⟨e, h, _⟩ | ⟨q, _, hpos, h⟩
    · rw [h] at hok; cases hok
    · rcases h with ⟨t, h⟩ | ⟨t, h⟩ | ⟨_, h⟩ | ⟨_, _, _, _, _, _, h⟩ | ⟨t, h⟩ | ⟨t, h⟩ | ⟨_, h⟩ |
        ⟨preS, postS, hs, preR, postR, hr, hlS, _, hhs, hlR, _, h⟩
      · rw [h] at hok; cases hok
      · rw [h] at hok; cases hok
      · rw [h] at hok; cases hok
      · rw [h] at hok; cases hok
      · rw [h] at hok; cases hok
      · rw [h] at hok; cases hok
      · rw [h] at hok; cases hok
      · rw [h] at hok ⊢
        by_cases hre : (hr.sub q).val < q.val
        · simp [hre] at hok
        · cases hp0 : stub.putFault (nPuts stub.log) with
          | some t => simp [hre, PutState, nPuts_append, nPuts, hp0] at hok
          | none =>
            cases hp1 : stub.putFault (nPuts stub.log + 1) with
            | some t => simp [hre, PutState, nPuts_append, nPuts, hp0, hp1] at hok
            | none =>
              refine ⟨⟨(J.Unmarshal (bytesToString (stub.state (bytesToString (stub.state fromUserId))))).userid,
                  preS ++ ⟨A, hs.sub q⟩ :: postS⟩,
                ⟨(J.Unmarshal (bytesToString (stub.state (bytesToString (stub.state toUserId))))).userid,
                  preR ++ ⟨A, hr.sub q⟩ :: postR⟩, ?_⟩
              have hsv : (hs.sub q).val = hs.val - q.val :=
                GoInt.sub_val_of_le hs q (by omega) hhs
              refine ⟨by simp [hre, PutState, nPuts_append, nPuts, hp0, hp1], ?_, ?_,
                by simp [hre, PutState, nPuts_append, nPuts, hp0, hp1],
                fun hne => by simp [hre, PutState, nPuts_append, nPuts, hp0, hp1, hne]⟩
              · intro a ha
                rcases List.mem_append.mp ha with ha | ha
                · exact hS a (by rw [hlS]; exact List.mem_append_left _ ha)
                · rcases List.mem_cons.mp ha with rfl | ha
                  · show 0 ≤ (hs.sub q).val
                    omega
                  · exact hS a (by rw [hlS]; exact List.mem_append_right _ (List.mem_cons_of_mem _ ha))
              · intro a ha
                rcases List.mem_append.mp ha with ha | ha
                · exact hR a (by rw [hlR]; exact List.mem_append_left _ ha)
                · rcases List.mem_cons.mp ha with rfl | ha
                  · show 0 ≤ (hr.sub q).val
                    omega
                  · exact hR a (by rw [hlR]; exact List.mem_append_right _ (List.mem_cons_of_mem _ ha))
  · intro stub0 userId accountId h1
    cases hg : stub0.getFault (nGets stub0.log) with
    | some t => simp [create_user, GetState, hg] at h1
    | none =>
    cases hst : stub0.state userId with
    | some v => simp [create_user, GetState, hg, hst] at h1
    | none =>
      cases hp0 : stub0.putFault (nPuts stub0.log) with
      | some t =>
        simp [create_user, GetState, PutState, hg, hst, hp0, nPuts_append, nPuts] at h1
      | none =>
        cases hp1 : stub0.putFault (nPuts stub0.log + 1) with
        | some t =>
          simp [create_user, GetState, PutState, hg, hst, hp0, hp1, nPuts_append, nPuts] at h1
        | none =>
          rw [create_user_fresh J stub0 userId accountId hst hg hp0 hp1]
          refine ⟨⟨userId, [⟨"USD", GoInt.ofInt 10000⟩]⟩, rfl, by simp, ?_⟩
          intro a ha
          rcases List.mem_singleton.mp ha with rfl
          decide

/-! ## Witnesses -/

/-- Witness of C3: `transfer_money(alice, bob, "USD", "2500")` on `ledgerTwoUsers`, and the
scenario run from the empty ledger. -/
theorem C3_existing_line_debits_both_witness :
    (Atoi "2500" = .ok (GoInt.ofInt 2500) ∧ 0 < (GoInt.ofInt 2500).val ∧
      (∀ n, ledgerTwoUsers.getFault n = none) ∧ (∀ n, ledgerTwoUsers.putFault n = none) ∧
      ledgerTwoUsers.state "alice" = some "A1" ∧ ledgerTwoUsers.state "bob" = some "A2" ∧
      "A1" ≠ "A2" ∧
      ledgerTwoUsers.state "A1" = some (recordText "alice" "USD" "10000") ∧
      ledgerTwoUsers.state "A2" = some (recordText "bob" "USD" "10000") ∧
      jsonStd.Unmarshal (recordText "alice" "USD" "10000")
        = ⟨"alice", [] ++ ⟨"USD", GoInt.ofInt 10000⟩ :: []⟩ ∧
      jsonStd.Unmarshal (recordText "bob" "USD" "10000")
        = ⟨"bob", [] ++ ⟨"USD", GoInt.ofInt 10000⟩ :: []⟩ ∧
      (GoInt.ofInt 2500).val ≤ (GoInt.ofInt 10000).val ∧
      2 * (GoInt.ofInt 2500).val ≤ (GoInt.ofInt 10000).val) ∧
    ((transfer_money jsonStd ledgerTwoUsers ["alice", "bob", "USD", "2500"]).1 = .success ∧
      (transfer_money jsonStd ledgerTwoUsers ["alice", "bob", "USD", "2500"]).2.state "A1"
        = some (jsonStd.Marshal
            ⟨"alice", [] ++ ⟨"USD", (GoInt.ofInt 10000).sub (GoInt.ofInt 2500)⟩ :: []⟩) ∧
      (transfer_money jsonStd ledgerTwoUsers ["alice", "bob", "USD", "2500"]).2.state "A2"
        = some (jsonStd.Marshal
            ⟨"bob", [] ++ ⟨"USD", (GoInt.ofInt 10000).sub (GoInt.ofInt 2500)⟩ :: []⟩) ∧
      ((GoInt.ofInt 10000).sub (GoInt.ofInt 2500)).val
        = (GoInt.ofInt 10000).val - (GoInt.ofInt 2500).val ∧
      ((GoInt.ofInt 10000).sub (GoInt.ofInt 2500)).val
        = (GoInt.ofInt 10000).val - (GoInt.ofInt 2500).val) ∧
    ((transfer_money jsonStd
        (create_user jsonStd (create_user jsonStd ledgerEmpty ["alice", "A1"]).2 ["bob", "A2"]).2
        ["alice", "bob", "USD", "2500"]).2.state "A1"
        = some (jsonStd.Marshal ⟨"alice", [⟨"USD", GoInt.ofInt 7500⟩]⟩) ∧
      (transfer_money jsonStd
        (create_user jsonStd (create_user jsonStd ledgerEmpty ["alice", "A1"]).2 ["bob", "A2"]).2
        ["alice", "bob", "USD", "2500"]).2.state "A2"
        = some (jsonStd.Marshal ⟨"bob", [⟨"USD", GoInt.ofInt 7500⟩]⟩)) :=
  have h := C3_existing_line_debits_both jsonStd ledgerTwoUsers "alice" "bob" "USD" "2500" "A1" "A2"
    (recordText "alice" "USD" "10000") (recordText "bob" "USD" "10000")
    (GoInt.ofInt 2500) (GoInt.ofInt 10000) (GoInt.ofInt 10000) "alice" "bob" [] [] [] []
    (by rfl) (by decide) (fun _ => rfl) (fun _ => rfl) (by decide) (by decide) (by decide)
    (by decide) (by decide) (by decide) (by simp) (by decide) (by simp) (by decide) (by decide)
    (by decide) (by decide)
  ⟨⟨by rfl, by decide, fun _ => rfl, fun _ => rfl, by decide, by decide, by decide, by decide,
      by decide, by decide, by decide, by decide, by decide⟩,
    h.1,
    (h.2 ledgerEmpty (fun _ => rfl) (fun _ => rfl) (by decide) (by decide)).2.2.2⟩

/-- Witness of C4: a transfer of 20000 USD from a sender holding 10000. -/
theorem C4_insufficient_funds_witness :
    (Atoi "20000" = .ok (GoInt.ofInt 20000) ∧ 0 < (GoInt.ofInt 20000).val ∧
      (∀ n, ledgerTwoUsers.getFault n = none) ∧
      ledgerTwoUsers.state "alice" = some "A1" ∧
      ledgerTwoUsers.state "A1" = some (recordText "alice" "USD" "10000") ∧
      jsonStd.Unmarshal (recordText "alice" "USD" "10000")
        = ⟨"alice", [] ++ ⟨"USD", GoInt.ofInt 10000⟩ :: []⟩ ∧
      (GoInt.ofInt 10000).val < (GoInt.ofInt 20000).val) ∧
    ((transfer_money jsonStd ledgerTwoUsers ["alice", "bob", "USD", "20000"]).1
        = .failure (.New "Insufficient funds") ∧
      (transfer_money jsonStd ledgerTwoUsers ["alice", "bob", "USD", "20000"]).2.state
        = ledgerTwoUsers.state ∧
      (transfer_money jsonStd ledgerTwoUsers ["alice", "bob", "USD", "20000"]).2.log
        = ledgerTwoUsers.log ++ [Call.GetState "alice", Call.GetState "A1"] ∧
      nPuts (transfer_money jsonStd ledgerTwoUsers ["alice", "bob", "USD", "20000"]).2.log
        = nPuts ledgerTwoUsers.log) :=
  ⟨⟨by rfl, by decide, fun _ => rfl, by decide, by decide, by decide, by decide⟩,
   C4_insufficient_funds jsonStd ledgerTwoUsers "alice" "bob" "USD" "20000" "A1"
     (recordText "alice" "USD" "10000") (GoInt.ofInt 20000) (GoInt.ofInt 10000) "alice" [] []
     (by rfl) (by decide) (fun _ => rfl) (by decide) (by decide) (by decide) (by simp)
     (by decide)⟩

/-- Witness of C5: a transfer of EUR from a sender holding only USD. -/
theorem C5_asset_not_held_witness :
    (Atoi "5" = .ok (GoInt.ofInt 5) ∧ 0 < (GoInt.ofInt 5).val ∧
      (∀ n, ledgerTwoUsers.getFault n = none) ∧
      ledgerTwoUsers.state "alice" = some "A1" ∧
      ledgerTwoUsers.state "A1" = some (recordText "alice" "USD" "10000") ∧
      (∀ a ∈ (jsonStd.Unmarshal (recordText "alice" "USD" "10000")).assets, a.Name ≠ "EUR")) ∧
    ((transfer_money jsonStd ledgerTwoUsers ["alice", "bob", "EUR", "5"]).1
        = .failure (.New "Sender does not hold any unit(s) of this asset") ∧
      (transfer_money jsonStd ledgerTwoUsers ["alice", "bob", "EUR", "5"]).2.state
        = ledgerTwoUsers.state ∧
      (transfer_money jsonStd ledgerTwoUsers ["alice", "bob", "EUR", "5"]).2.log
        = ledgerTwoUsers.log ++ [Call.GetState "alice", Call.GetState "A1"]) :=
  ⟨⟨by rfl, by decide, fun _ => rfl, by decide, by decide, by decide⟩,
   C5_asset_not_held jsonStd ledgerTwoUsers "alice" "bob" "EUR" "5" "A1"
     (recordText "alice" "USD" "10000") (GoInt.ofInt 5)
     (by rfl) (by decide) (fun _ => rfl) (by decide) (by decide) (by decide)⟩

/-- Witness of C7: `create_user(alice, A1)` then `create_user(alice, A9)` on the empty
ledger. -/
theorem C7_duplicate_user_rejected_witness :
    ((∀ n, ledgerEmpty.getFault n = none) ∧
      (create_user jsonStd ledgerEmpty ["alice", "A1"]).1 = .success) ∧
    ((create_user jsonStd (create_user jsonStd ledgerEmpty ["alice", "A1"]).2 ["alice", "A9"]).1
        = .failure (.New "userid already used.") ∧
      (create_user jsonStd (create_user jsonStd ledgerEmpty ["alice", "A1"]).2 ["alice", "A9"]).2.state
        = (create_user jsonStd ledgerEmpty ["alice", "A1"]).2.state ∧
      (create_user jsonStd (create_user jsonStd ledgerEmpty ["alice", "A1"]).2 ["alice", "A9"]).2.log
        = (create_user jsonStd ledgerEmpty ["alice", "A1"]).2.log ++ [Call.GetState "alice"]) :=
  ⟨⟨fun _ => rfl, by decide⟩,
   C7_duplicate_user_rejected jsonStd ledgerEmpty "alice" "A1" "A9" (fun _ => rfl) (by decide)⟩

/-- Witness of C10: the successful transfer of 2500 USD on `ledgerTwoUsers`. -/
theorem C10_quantities_stay_non_negative_witness :
    ((∀ a ∈ (jsonStd.Unmarshal (bytesToString
        (ledgerTwoUsers.state (bytesToString (ledgerTwoUsers.state "alice"))))).assets,
        0 ≤ a.Qty.val) ∧
      (∀ a ∈ (jsonStd.Unmarshal (bytesToString
        (ledgerTwoUsers.state (bytesToString (ledgerTwoUsers.state "bob"))))).assets,
        0 ≤ a.Qty.val) ∧
      (transfer_money jsonStd ledgerTwoUsers ["alice", "bob", "USD", "2500"]).1 = .success) ∧
    (∃ newS newR : Record,
      (transfer_money jsonStd ledgerTwoUsers ["alice", "bob", "USD", "2500"]).2.log
        = ledgerTwoUsers.log ++ [Call.GetState "alice",
            Call.GetState (bytesToString (ledgerTwoUsers.state "alice")),
            Call.GetState "bob", Call.GetState (bytesToString (ledgerTwoUsers.state "bob")),
            Call.PutState (bytesToString (ledgerTwoUsers.state "bob")) (jsonStd.Marshal newR),
            Call.PutState (bytesToString (ledgerTwoUsers.state "alice")) (jsonStd.Marshal newS)] ∧
      (∀ a ∈ newS.assets, 0 ≤ a.Qty.val) ∧ (∀ a ∈ newR.assets, 0 ≤ a.Qty.val) ∧
      (transfer_money jsonStd ledgerTwoUsers ["alice", "bob", "USD", "2500"]).2.state
          (bytesToString (ledgerTwoUsers.state "alice")) = some (jsonStd.Marshal newS) ∧
      (bytesToString (ledgerTwoUsers.state "bob") ≠ bytesToString (ledgerTwoUsers.state "alice") →
        (transfer_money jsonStd ledgerTwoUsers ["alice", "bob", "USD", "2500"]).2.state
          (bytesToString (ledgerTwoUsers.state "bob")) = some (jsonStd.Marshal newR))) :=
  ⟨⟨by decide, by decide, by decide⟩,
   (C10_quantities_stay_non_negative jsonStd ledgerTwoUsers "alice" "bob" "USD" "2500"
     (by decide) (by decide) (by decide)).1⟩

/-! ## Frame and success lemmas -/

/-- A `PutState` changes the state at most at its key. -/
theorem PutState_state_of_ne (stub : ChaincodeStub) (key : String) (value : Bytes) (k : String)
    (hk : k ≠ key) : (PutState stub key value).2.state k = stub.state k := by
  unfold PutState
  cases stub.putFault (nPuts stub.log) <;> simp [hk]

/-- Whatever the outcome, `transfer_money` changes the ledger state at most under the two
account ids its users resolve to. -/
theorem transfer_money_frame (J : Json) (stub : ChaincodeStub)
    (fromUserId toUserId A qtyArg : String) (k : String)
    (hS : k ≠ bytesToString (stub.state fromUserId))
    (hR : k ≠ bytesToString (stub.state toUserId)) :
    (transfer_money J stub [fromUserId, toUserId, A, qtyArg]).2.state k = stub.state k := by
  rcases transfer_money_cases J stub fromUserId toUserId A qtyArg with
    ⟨e, h, _⟩ | ⟨q, _, _, h⟩
  · rw [h]
  · rcases h with ⟨t, h⟩ | ⟨t, h⟩ | ⟨_, h⟩ | ⟨_, _, _, _, _, _, h⟩ | ⟨t, h⟩ | ⟨t, h⟩ | ⟨_, h⟩ |
      ⟨_, _, _, _, _, _, _, _, _, _, _, h⟩
    · rw [h]
    · rw [h]
    · rw [h]
    · rw [h]
    · rw [h]
    · rw [h]
    · rw [h]
    · rw [h]
      split_ifs
      · rfl
      · cases hp0 : stub.putFault (nPuts stub.log) with
        | some t => simp [PutState, nPuts_append, nPuts, hp0]
        | none =>
          cases hp1 : stub.putFault (nPuts stub.log + 1) with
          | some t =>
            cases hp2 : stub.putFault (nPuts stub.log + 2) <;>
              simp [PutState, nPuts_append, nPuts, hp0, hp1, hp2, hR]
          | none => simp [PutState, nPuts_append, nPuts, hp0, hp1, hS, hR]

/-- A successful `transfer_money` ran the existing-line path with both writes accepted: each
record is split at its last line named `A`, that line is debited in both, and the two records
are written, the recipient's first. -/
theorem transfer_money_success (J : Json) (stub : ChaincodeStub)
    (fromUserId toUserId A qtyArg : String)
    (hok : (transfer_money J stub [fromUserId, toUserId, A, qtyArg]).1 = .success) :
    ∃ (q : GoInt) (preS postS : List Asset) (hs : GoInt) (preR postR : List Asset) (hr : GoInt),
      Atoi qtyArg = .ok q ∧ 0 < q.val ∧
      (J.Unmarshal (bytesToString (stub.state (bytesToString (stub.state fromUserId))))).assets
        = preS ++ ⟨A, hs⟩ :: postS ∧ (∀ b ∈ postS, b.Name ≠ A) ∧ q.val ≤ hs.val ∧
      (J.Unmarshal (bytesToString (stub.state (bytesToString (stub.state toUserId))))).assets
        = preR ++ ⟨A, hr⟩ :: postR ∧ (∀ b ∈ postR, b.Name ≠ A) ∧ q.val ≤ (hr.sub q).val ∧
      transfer_money J stub [fromUserId, toUserId, A, qtyArg] =
        (.success,
         { stub with
           state := fun k =>
             if k = bytesToString (stub.state fromUserId) then
               some (J.Marshal ⟨(J.Unmarshal (bytesToString
                 (stub.state (bytesToString (stub.state fromUserId))))).userid,
                 preS ++ ⟨A, hs.sub q⟩ :: postS⟩)
             else if k = bytesToString (stub.state toUserId) then
               some (J.Marshal ⟨(J.Unmarshal (bytesToString
                 (stub.state (bytesToString (stub.state toUserId))))).userid,
                 preR ++ ⟨A, hr.sub q⟩ :: postR⟩)
             else stub.state k,
           log := stub.log ++
             [Call.GetState fromUserId, Call.GetState (bytesToString (stub.state fromUserId)),
              Call.GetState toUserId, Call.GetState (bytesToString (stub.state toUserId)),
              Call.PutState (bytesToString (stub.state toUserId))
                (J.Marshal ⟨(J.Unmarshal (bytesToString
                  (stub.state (bytesToString (stub.state toUserId))))).userid,
                  preR ++ ⟨A, hr.sub q⟩ :: postR⟩),
              Call.PutState (bytesToString (stub.state fromUserId))
                (J.Marshal ⟨(J.Unmarshal (bytesToString
                  (stub.state (bytesToString (stub.state fromUserId))))).userid,
                  preS ++ ⟨A, hs.sub q⟩ :: postS⟩)] }) := by
  rcases transfer_money_cases J stub fromUserId toUserId A qtyArg with
    ⟨e, h, _⟩ | ⟨q, hq, hpos, h⟩
  · rw [h] at hok; cases hok
  · rcases h with ⟨t, h⟩ | ⟨t, h⟩ | ⟨_, h⟩ | ⟨_, _, _, _, _, _, h⟩ | ⟨t, h⟩ | ⟨t, h⟩ | ⟨_, h⟩ |
      ⟨preS, postS, hs, preR, postR, hr, hlS, hpostS, hhs, hlR, hpostR, h⟩
    · rw [h] at hok; cases hok
    · rw [h] at hok; cases hok
    · rw [h] at hok; cases hok
    · rw [h] at hok; cases hok
    · rw [h] at hok; cases hok
    · rw [h] at hok; cases hok
    · rw [h] at hok; cases hok
    · rw [h] at hok
      by_cases hre : (hr.sub q).val < q.val
      · simp [hre] at hok
      · cases hp0 : stub.putFault (nPuts stub.log) with
        | some t => simp [hre, PutState, nPuts_append, nPuts, hp0] at hok
        | none =>
          cases hp1 : stub.putFault (nPuts stub.log + 1) with
          | some t => simp [hre, PutState, nPuts_append, nPuts, hp0, hp1] at hok
          | none =>
            refine ⟨q, preS, postS, hs, preR, postR, hr, hq, hpos, hlS, hpostS, hhs, hlR, hpostR,
              by omega, ?_⟩
            rw [h]
            simp [hre, PutState, nPuts_append, nPuts, hp0, hp1]

/-- C11 as stated fails.  On a ledger where `carol` is mapped to `C1`, `create_user(dave,
carol)` with the fresh user id `dave` succeeds and replaces the value under `carol` by dave's
record; a following `transfer_money(alice, dave, "USD", "2500")` succeeds and changes the value
under `carol` again. -/
theorem C11_counterexample_mapping_overwritten :
    ledgerWithCarol.state "carol" = some "C1" ∧
    ledgerWithCarol.state "dave" = none ∧
    (create_user jsonStd ledgerWithCarol ["dave", "carol"]).1 = .success ∧
    (create_user jsonStd ledgerWithCarol ["dave", "carol"]).2.state "carol"
      = some (recordText "dave" "USD" "10000") ∧
    ledgerDaveOnCarol.state "carol" = some (recordText "dave" "USD" "10000") ∧
    (transfer_money jsonStd ledgerDaveOnCarol ["alice", "dave", "USD", "2500"]).1 = .success ∧
    (transfer_money jsonStd ledgerDaveOnCarol ["alice", "dave", "USD", "2500"]).2.state "carol"
      = some (recordText "dave" "USD" "7500") := by
  decide

/-- C11 (amended).  Whatever its outcome, `create_user(userId2, accountId)` leaves the value
under every key that held a value before the call and differs from `accountId` as it was, and
`transfer_money` leaves the value under every key other than the two account ids its users
resolve to as it was; calls with another number of arguments leave the stub untouched.  In
particular `create_user(userId2, accountId)` with a fresh `userId2` keeps the mapping of an
existing `userId1` whenever `accountId` differs from `userId1`. -/
theorem C11_calls_keep_other_keys (J : Json) (stub : ChaincodeStub) :
    (∀ userId2 accountId k : String, k ≠ accountId → stub.state k ≠ none →
      (create_user J stub [userId2, accountId]).2.state k = stub.state k) ∧
    (∀ fromUserId toUserId A qtyArg k : String,
      k ≠ bytesToString (stub.state fromUserId) → k ≠ bytesToString (stub.state toUserId) →
      (transfer_money J stub [fromUserId, toUserId, A, qtyArg]).2.state k = stub.state k) ∧
    (∀ args : List String, args.length ≠ 2 → (create_user J stub args).2 = stub) ∧
    (∀ args : List String, args.length ≠ 4 → (transfer_money J stub args).2 = stub) ∧
    (∀ userId1 userId2 accountId : String, stub.state userId1 ≠ none →
      stub.state userId2 = none → accountId ≠ userId1 →
      (create_user J stub [userId2, accountId]).2.state userId1 = stub.state userId1) := by
  have hcreate : ∀ userId2 accountId k : String, k ≠ accountId → stub.state k ≠ none →
      (create_user J stub [userId2, accountId]).2.state k = stub.state k := by
    intro userId2 accountId k hk hmapped
    cases hg : stub.getFault (nGets stub.log) with
    | some t => simp [create_user, GetState, hg]
    | none =>
      cases hst : stub.state userId2 with
      | some v => simp [create_user, GetState, hg, hst]
      | none =>
        have hk2 : k ≠ userId2 := fun h => hmapped (by rw [h]; exact hst)
        cases hp0 : stub.putFault (nPuts stub.log) with
        | some t => simp [create_user, GetState, PutState, hg, hst, hp0, nPuts_append, nPuts]
        | none =>
          cases hp1 : stub.putFault (nPuts stub.log + 1) with
          | some t =>
            simp [create_user, GetState, PutState, hg, hst, hp0, hp1, nPuts_append, nPuts, hk2]
          | none =>
            rw [create_user_fresh J stub userId2 accountId hst hg hp0 hp1]
            simp [hk, hk2]
  refine ⟨hcreate, ?_, ?_, ?_, ?_⟩
  · intro fromUserId toUserId A qtyArg k hS hR
    exact transfer_money_frame J stub fromUserId toUserId A qtyArg k hS hR
  · intro args hlen
    rcases args with _ | ⟨a, _ | ⟨b, _ | ⟨c, rest⟩⟩⟩
    · simp [create_user]
    · simp [create_user]
    · simp at hlen
    · simp [create_user]
  · intro args hlen
    rcases args with _ | ⟨a, _ | ⟨b, _ | ⟨c, _ | ⟨d, _ | ⟨e, rest⟩⟩⟩⟩⟩
    · simp [transfer_money]
    · simp [transfer_money]
    · simp [transfer_money]
    · simp [transfer_money]
    · simp at hlen
    · simp [transfer_money]
  · intro userId1 userId2 accountId hmapped _ hne
    exact hcreate userId2 accountId userId1 (fun h => hne h.symm) hmapped

/-- Witness of C11 (amended): `create_user(carol, C1)` keeps the mapping of `alice`, and a
transfer between `alice` and `bob` keeps the two mappings. -/
theorem C11_calls_keep_other_keys_witness :
    ("alice" ≠ "C1" ∧ ledgerTwoUsers.state "alice" ≠ none ∧
      "alice" ≠ bytesToString (ledgerTwoUsers.state "alice") ∧
      "alice" ≠ bytesToString (ledgerTwoUsers.state "bob")) ∧
    (create_user jsonStd ledgerTwoUsers ["carol", "C1"]).2.state "alice"
      = ledgerTwoUsers.state "alice" ∧
    (transfer_money jsonStd ledgerTwoUsers ["alice", "bob", "USD", "2500"]).2.state "alice"
      = ledgerTwoUsers.state "alice" :=
  ⟨⟨by decide, by decide, by decide, by decide⟩,
   (C11_calls_keep_other_keys jsonStd ledgerTwoUsers).1 "carol" "C1" "alice" (by decide) (by decide),
   (C11_calls_keep_other_keys jsonStd ledgerTwoUsers).2.1 "alice" "bob" "USD" "2500" "alice"
     (by decide) (by decide)⟩

/-- C12 as stated fails for a recipient quantity so low that the debit wraps around: with the
recipient's USD line at the smallest `int` and `q = 1`, the difference is below `q`, yet the
debited line holds the largest `int`, the re-check passes and both records are written. -/
theorem C12_counterexample_wrap_around :
    jsonStd.Unmarshal (recordText "bob" "USD" "-9223372036854775808")
      = ⟨"bob", [⟨"USD", GoInt.ofInt (-9223372036854775808)⟩]⟩ ∧
    (GoInt.ofInt (-9223372036854775808)).val - (GoInt.ofInt 1).val < (GoInt.ofInt 1).val ∧
    (transfer_money jsonStd ledgerDeepDebt ["alice", "bob", "USD", "1"]).1 = .success ∧
    (transfer_money jsonStd ledgerDeepDebt ["alice", "bob", "USD", "1"]).2.state "A2"
      = some (recordText "bob" "USD" "9223372036854775807") ∧
    (transfer_money jsonStd ledgerDeepDebt ["alice", "bob", "USD", "1"]).2.state "A1"
      = some (recordText "alice" "USD" "9999") := by
  decide

/-- C12 (amended).  When the sender's line for `A` holds `hs ≥ q`, the recipient's line for `A`
(the last of that name) holds `hr` with `hr - q < q` and the debit does not wrap around
(`hr - q` is at least the smallest `int`, as for every `hr ≥ 0`), with `q > 0` and the reads
answered, `transfer_money` returns "Insufficient funds" from the re-check of the debited
recipient line, after its four reads; it makes no `PutState` call and the ledger state is
unchanged. -/
theorem C12_recipient_recheck_fails (J : Json) (stub : ChaincodeStub)
    (fromUserId toUserId A qtyArg S R : String) (bS bR : Bytes) (q hs hr : GoInt)
    (uS uR : String) (preS postS preR postR : List Asset)
    (hq : Atoi qtyArg = .ok q) (hpos : 0 < q.val)
    (hget : ∀ n, stub.getFault n = none)
    (hfrom : stub.state fromUserId = some S) (hto : stub.state toUserId = some R)
    (hbS : stub.state S = some bS) (hbR : stub.state R = some bR)
    (hS : J.Unmarshal bS = ⟨uS, preS ++ ⟨A, hs⟩ :: postS⟩) (hpostS : ∀ b ∈ postS, b.Name ≠ A)
    (hR : J.Unmarshal bR = ⟨uR, preR ++ ⟨A, hr⟩ :: postR⟩) (hpostR : ∀ b ∈ postR, b.Name ≠ A)
    (hhs : q.val ≤ hs.val) (hlow : hr.val - q.val < q.val)
    (hnowrap : -9223372036854775808 ≤ hr.val - q.val) :
    (transfer_money J stub [fromUserId, toUserId, A, qtyArg]).1
      = .failure (.New "Insufficient funds") ∧
    (transfer_money J stub [fromUserId, toUserId, A, qtyArg]).2.state = stub.state ∧
    (transfer_money J stub [fromUserId, toUserId, A, qtyArg]).2.log
      = stub.log ++ [Call.GetState fromUserId, Call.GetState S, Call.GetState toUserId,
          Call.GetState R] ∧
    nPuts (transfer_money J stub [fromUserId, toUserId, A, qtyArg]).2.log = nPuts stub.log := by
  have hrv : (hr.sub q).val = hr.val - q.val := by
    have := hr.property
    exact GoInt.sub_val hr q hnowrap (by omega)
  have hre : (hr.sub q).val < q.val := by rw [hrv]; exact hlow
  have hrun := transfer_money_existing_line J stub fromUserId toUserId A qtyArg q uS uR
    preS postS preR postR hs hr hq hpos (hget _) (hget _) (hget _) (hget _)
    (by simp [hfrom, hbS, bytesToString, hS]) hpostS hhs
    (by simp [hto, hbR, bytesToString, hR]) hpostR
  rw [hrun]
  simp [hre, hfrom, hto, bytesToString, nPuts_append, nPuts]

/-- Witness of C12 (amended): a transfer of 6000 USD between two holders of 10000 USD. -/
theorem C12_recipient_recheck_fails_witness :
    (Atoi "6000" = .ok (GoInt.ofInt 6000) ∧ 0 < (GoInt.ofInt 6000).val ∧
      (∀ n, ledgerTwoUsers.getFault n = none) ∧
      ledgerTwoUsers.state "alice" = some "A1" ∧ ledgerTwoUsers.state "bob" = some "A2" ∧
      ledgerTwoUsers.state "A1" = some (recordText "alice" "USD" "10000") ∧
      ledgerTwoUsers.state "A2" = some (recordText "bob" "USD" "10000") ∧
      jsonStd.Unmarshal (recordText "alice" "USD" "10000")
        = ⟨"alice", [] ++ ⟨"USD", GoInt.ofInt 10000⟩ :: []⟩ ∧
      jsonStd.Unmarshal (recordText "bob" "USD" "10000")
        = ⟨"bob", [] ++ ⟨"USD", GoInt.ofInt 10000⟩ :: []⟩ ∧
      (GoInt.ofInt 6000).val ≤ (GoInt.ofInt 10000).val ∧
      (GoInt.ofInt 10000).val - (GoInt.ofInt 6000).val < (GoInt.ofInt 6000).val ∧
      -9223372036854775808 ≤ (GoInt.ofInt 10000).val - (GoInt.ofInt 6000).val) ∧
    ((transfer_money jsonStd ledgerTwoUsers ["alice", "bob", "USD", "6000"]).1
        = .failure (.New "Insufficient funds") ∧
      (transfer_money jsonStd ledgerTwoUsers ["alice", "bob", "USD", "6000"]).2.state
        = ledgerTwoUsers.state ∧
      (transfer_money jsonStd ledgerTwoUsers ["alice", "bob", "USD", "6000"]).2.log
        = ledgerTwoUsers.log ++ [Call.GetState "alice", Call.GetState "A1", Call.GetState "bob",
            Call.GetState "A2"] ∧
      nPuts (transfer_money jsonStd ledgerTwoUsers ["alice", "bob", "USD", "6000"]).2.log
        = nPuts ledgerTwoUsers.log) :=
  ⟨⟨by rfl, by decide, fun _ => rfl, by decide, by decide, by decide, by decide, by decide,
      by decide, by decide, by decide, by decide⟩,
   C12_recipient_recheck_fails jsonStd ledgerTwoUsers "alice" "bob" "USD" "6000" "A1" "A2"
     (recordText "alice" "USD" "10000") (recordText "bob" "USD" "10000")
     (GoInt.ofInt 6000) (GoInt.ofInt 10000) (GoInt.ofInt 10000) "alice" "bob" [] [] [] []
     (by rfl) (by decide) (fun _ => rfl) (by decide) (by decide) (by decide) (by decide)
     (by decide) (by simp) (by decide) (by simp) (by decide) (by decide) (by decide)⟩

/-- C13 as stated fails: when the sender's write and the compensating write are both refused,
the call returns the sender-write error alone, the same result as when the compensating write
is accepted; the error of the compensating write appears nowhere in the result. -/
theorem C13_counterexample_rollback_error_dropped :
    ledgerRollbackRefused.putFault 0 = none ∧
    ledgerRollbackRefused.putFault 1 = some "write refused" ∧
    ledgerRollbackRefused.putFault 2 = some "rollback refused" ∧
    (transfer_money jsonStd ledgerRollbackRefused ["alice", "bob", "USD", "2500"]).1
      = .failure (.Ledger "write refused") ∧
    (transfer_money jsonStd ledgerRollbackRefused ["alice", "bob", "USD", "2500"]).1
      = (transfer_money jsonStd ledgerSecondWriteFails ["alice", "bob", "USD", "2500"]).1 ∧
    (transfer_money jsonStd ledgerRollbackRefused ["alice", "bob", "USD", "2500"]).2.log
      = [Call.GetState "alice", Call.GetState "A1", Call.GetState "bob", Call.GetState "A2",
         Call.PutState "A2" (recordText "bob" "USD" "7500"),
         Call.PutState "A1" (recordText "alice" "USD" "7500"),
         Call.PutState "A2" (recordText "bob" "USD" "7500")] := by
  decide

/-- C13 (amended).  On the existing-line path with the re-check passed, when the recipient's
write is accepted, the sender's write is refused with error `t1` and the compensating write is
refused with error `t2`, `transfer_money` returns the sender-write error `t1` and nothing else:
the error `t2` is discarded.  Three writes were attempted and the ledger keeps the recipient's
updated record, which the first write stored. -/
theorem C13_rollback_error_discarded (J : Json) (stub : ChaincodeStub)
    (fromUserId toUserId A qtyArg S R : String) (bS bR : Bytes) (q hs hr : GoInt)
    (uS uR : String) (preS postS preR postR : List Asset) (t1 t2 : String)
    (hq : Atoi qtyArg = .ok q) (hpos : 0 < q.val)
    (hget : ∀ n, stub.getFault n = none)
    (hfrom : stub.state fromUserId = some S) (hto : stub.state toUserId = some R)
    (hbS : stub.state S = some bS) (hbR : stub.state R = some bR)
    (hS : J.Unmarshal bS = ⟨uS, preS ++ ⟨A, hs⟩ :: postS⟩) (hpostS : ∀ b ∈ postS, b.Name ≠ A)
    (hR : J.Unmarshal bR = ⟨uR, preR ++ ⟨A, hr⟩ :: postR⟩) (hpostR : ∀ b ∈ postR, b.Name ≠ A)
    (hhs : q.val ≤ hs.val) (hre : q.val ≤ (hr.sub q).val)
    (hp0 : stub.putFault (nPuts stub.log) = none)
    (hp1 : stub.putFault (nPuts stub.log + 1) = some t1)
    (hp2 : stub.putFault (nPuts stub.log + 2) = some t2) :
    (transfer_money J stub [fromUserId, toUserId, A, qtyArg]).1 = .failure (.Ledger t1) ∧
    nPuts (transfer_money J stub [fromUserId, toUserId, A, qtyArg]).2.log = nPuts stub.log + 3 ∧
    (transfer_money J stub [fromUserId, toUserId, A, qtyArg]).2.state R
      = some (J.Marshal ⟨uR, preR ++ ⟨A, hr.sub q⟩ :: postR⟩) ∧
    (∀ k, k ≠ R →
      (transfer_money J stub [fromUserId, toUserId, A, qtyArg]).2.state k = stub.state k) := by
  have hre' : ¬ (hr.sub q).val < q.val := by omega
  have hrun := transfer_money_existing_line J stub fromUserId toUserId A qtyArg q uS uR
    preS postS preR postR hs hr hq hpos (hget _) (hget _) (hget _) (hget _)
    (by simp [hfrom, hbS, bytesToString, hS]) hpostS hhs
    (by simp [hto, hbR, bytesToString, hR]) hpostR
  rw [hrun]
  simp only [hfrom, hto, bytesToString, Option.getD_some]
  refine ⟨?_, ?_, ?_, ?_⟩
  · simp [hre', PutState, nPuts_append, nPuts, hp0, hp1, hp2]
  · simp [hre', PutState, nPuts_append, nPuts, hp0, hp1, hp2]
  · simp [hre', PutState, nPuts_append, nPuts, hp0, hp1, hp2]
  · intro k hk
    simp [hre', PutState, nPuts_append, nPuts, hp0, hp1, hp2, hk]

/-- Witness of C13 (amended): the transfer of 2500 USD on `ledgerRollbackRefused`. -/
theorem C13_rollback_error_discarded_witness :
    (Atoi "2500" = .ok (GoInt.ofInt 2500) ∧ 0 < (GoInt.ofInt 2500).val ∧
      (∀ n, ledgerRollbackRefused.getFault n = none) ∧
      ledgerRollbackRefused.state "alice" = some "A1" ∧
      ledgerRollbackRefused.state "bob" = some "A2" ∧
      ledgerRollbackRefused.state "A1" = some (recordText "alice" "USD" "10000") ∧
      ledgerRollbackRefused.state "A2" = some (recordText "bob" "USD" "10000") ∧
      jsonStd.Unmarshal (recordText "alice" "USD" "10000")
        = ⟨"alice", [] ++ ⟨"USD", GoInt.ofInt 10000⟩ :: []⟩ ∧
      jsonStd.Unmarshal (recordText "bob" "USD" "10000")
        = ⟨"bob", [] ++ ⟨"USD", GoInt.ofInt 10000⟩ :: []⟩ ∧
      (GoInt.ofInt 2500).val ≤ (GoInt.ofInt 10000).val ∧
      (GoInt.ofInt 2500).val ≤ ((GoInt.ofInt 10000).sub (GoInt.ofInt 2500)).val ∧
      ledgerRollbackRefused.putFault (nPuts ledgerRollbackRefused.log) = none ∧
      ledgerRollbackRefused.putFault (nPuts ledgerRollbackRefused.log + 1) = some "write refused" ∧
      ledgerRollbackRefused.putFault (nPuts ledgerRollbackRefused.log + 2)
        = some "rollback refused") ∧
    (transfer_money jsonStd ledgerRollbackRefused ["alice", "bob", "USD", "2500"]).1
      = .failure (.Ledger "write refused") :=
  ⟨⟨by rfl, by decide, fun _ => rfl, by decide, by decide, by decide, by decide, by decide,
      by decide, by decide, by decide, by decide, by decide, by decide⟩,
   (C13_rollback_error_discarded jsonStd ledgerRollbackRefused "alice" "bob" "USD" "2500" "A1" "A2"
     (recordText "alice" "USD" "10000") (recordText "bob" "USD" "10000")
     (GoInt.ofInt 2500) (GoInt.ofInt 10000) (GoInt.ofInt 10000) "alice" "bob" [] [] [] []
     "write refused" "rollback refused"
     (by rfl) (by decide) (fun _ => rfl) (by decide) (by decide) (by decide) (by decide)
     (by decide) (by simp) (by decide) (by simp) (by decide) (by decide)
     (by decide) (by decide) (by decide)).1⟩

/-- C14.  Dangling mapping: when the key `userId` is absent, `accountId` differs from `userId`,
the read is answered, the first write (the mapping) is accepted and the second write (the
Account Record) is refused with error `t`, `create_user` returns that error; the mapping
`userId -> accountId` stays in the ledger, no third write is made to undo it, and the value
under `accountId`, like every other key, is as before the call. -/
theorem C14_dangling_mapping (J : Json) (stub : ChaincodeStub) (userId accountId t : String)
    (habs : stub.state userId = none) (hne : accountId ≠ userId)
    (hg : stub.getFault (nGets stub.log) = none)
    (hp0 : stub.putFault (nPuts stub.log) = none)
    (hp1 : stub.putFault (nPuts stub.log + 1) = some t) :
    (create_user J stub [userId, accountId]).1 = .failure (.Ledger t) ∧
    (create_user J stub [userId, accountId]).2.state userId = some accountId ∧
    (create_user J stub [userId, accountId]).2.state accountId = stub.state accountId ∧
    (∀ k, k ≠ userId → (create_user J stub [userId, accountId]).2.state k = stub.state k) ∧
    (create_user J stub [userId, accountId]).2.log
      = stub.log ++ [Call.GetState userId, Call.PutState userId accountId,
          Call.PutState accountId (J.Marshal ⟨userId, [⟨"USD", GoInt.ofInt 10000⟩]⟩)] := by
  have hrun : create_user J stub [userId, accountId] =
      (.failure (.Ledger t),
       { stub with
         state := fun k => if k = userId then some accountId else stub.state k,
         log := stub.log ++ [Call.GetState userId, Call.PutState userId accountId,
           Call.PutState accountId (J.Marshal ⟨userId, [⟨"USD", GoInt.ofInt 10000⟩]⟩)] }) := by
    simp [create_user, GetState, PutState, hg, hp0, hp1, habs, nPuts_append, nPuts, goAppend,
      jsonMarshal, Slice.elems, Heap.array]
  rw [hrun]
  refine ⟨rfl, by simp, by simp [hne], fun k hk => by simp [hk], rfl⟩

/-- Witness of C14: `create_user(alice, A1)` on a ledger that refuses the second write. -/
theorem C14_dangling_mapping_witness :
    (ledgerEmptySecondWriteFails.state "alice" = none ∧ "A1" ≠ "alice" ∧
      ledgerEmptySecondWriteFails.getFault (nGets ledgerEmptySecondWriteFails.log) = none ∧
      ledgerEmptySecondWriteFails.putFault (nPuts ledgerEmptySecondWriteFails.log) = none ∧
      ledgerEmptySecondWriteFails.putFault (nPuts ledgerEmptySecondWriteFails.log + 1)
        = some "write refused") ∧
    ((create_user jsonStd ledgerEmptySecondWriteFails ["alice", "A1"]).1
        = .failure (.Ledger "write refused") ∧
      (create_user jsonStd ledgerEmptySecondWriteFails ["alice", "A1"]).2.state "alice"
        = some "A1" ∧
      (create_user jsonStd ledgerEmptySecondWriteFails ["alice", "A1"]).2.state "A1"
        = ledgerEmptySecondWriteFails.state "A1" ∧
      (∀ k, k ≠ "alice" →
        (create_user jsonStd ledgerEmptySecondWriteFails ["alice", "A1"]).2.state k
          = ledgerEmptySecondWriteFails.state k) ∧
      (create_user jsonStd ledgerEmptySecondWriteFails ["alice", "A1"]).2.log
        = ledgerEmptySecondWriteFails.log ++ [Call.GetState "alice", Call.PutState "alice" "A1",
            Call.PutState "A1" (jsonStd.Marshal ⟨"alice", [⟨"USD", GoInt.ofInt 10000⟩]⟩)]) :=
  ⟨⟨by decide, by decide, by decide, by decide, by decide⟩,
   C14_dangling_mapping jsonStd ledgerEmptySecondWriteFails "alice" "A1" "write refused"
     (by decide) (by decide) (by decide) (by decide) (by decide)⟩

/-- C15.  Uniqueness of names is kept by a successful transfer: if neither the sender's nor the
recipient's record (as read from the ledger) has two lines of the same name and
`transfer_money` returns success, then the call wrote exactly two records, the recipient's and
then the sender's, each with the same names in the same order as before (so no line was
appended and no name occurs twice), and they are what the ledger holds under the two account
ids afterwards.  The record `create_user` writes on success has no two lines of the same
name either. -/
theorem C15_names_stay_unique (J : Json) (stub : ChaincodeStub)
    (fromUserId toUserId A qtyArg : String)
    (hS : ((J.Unmarshal (bytesToString
      (stub.state (bytesToString (stub.state fromUserId))))).assets.map Asset.Name).Nodup)
    (hR : ((J.Unmarshal (bytesToString
      (stub.state (bytesToString (stub.state toUserId))))).assets.map Asset.Name).Nodup)
    (hok : (transfer_money J stub [fromUserId, toUserId, A, qtyArg]).1 = .success) :
    (∃ newS newR : Record,
      (transfer_money J stub [fromUserId, toUserId, A, qtyArg]).2.log
        = stub.log ++ [Call.GetState fromUserId, Call.GetState (bytesToString (stub.state fromUserId)),
            Call.GetState toUserId, Call.GetState (bytesToString (stub.state toUserId)),
            Call.PutState (bytesToString (stub.state toUserId)) (J.Marshal newR),
            Call.PutState (bytesToString (stub.state fromUserId)) (J.Marshal newS)] ∧
      newS.assets.map Asset.Name = (J.Unmarshal (bytesToString
        (stub.state (bytesToString (stub.state fromUserId))))).assets.map Asset.Name ∧
      newR.assets.map Asset.Name = (J.Unmarshal (bytesToString
        (stub.state (bytesToString (stub.state toUserId))))).assets.map Asset.Name ∧
      (newS.assets.map Asset.Name).Nodup ∧ (newR.assets.map Asset.Name).Nodup ∧
      (transfer_money J stub [fromUserId, toUserId, A, qtyArg]).2.state
          (bytesToString (stub.state fromUserId)) = some (J.Marshal newS) ∧
      (bytesToString (stub.state toUserId) ≠ bytesToString (stub.state fromUserId) →
        (transfer_money J stub [fromUserId, toUserId, A, qtyArg]).2.state
          (bytesToString (stub.state toUserId)) = some (J.Marshal newR))) ∧
    (∀ (stub0 : ChaincodeStub) (userId accountId : String),
      (create_user J stub0 [userId, accountId]).1 = .success →
      ∃ seed : Record,
        (create_user J stub0 [userId, accountId]).2.log
          = stub0.log ++ [Call.GetState userId, Call.PutState userId accountId,
              Call.PutState accountId (J.Marshal seed)] ∧
        (create_user J stub0 [userId, accountId]).2.state accountId = some (J.Marshal seed) ∧
        (seed.assets.map Asset.Name).Nodup) := by
  constructor
  · obtain ⟨q, preS, postS, hs, preR, postR, hr, _, _, hlS, _, _, hlR, _, _, hrun⟩ :=
      transfer_money_success J stub fromUserId toUserId A qtyArg hok
    have hnS : (preS ++ (⟨A, hs.sub q⟩ : Asset) :: postS).map Asset.Name
        = (J.Unmarshal (bytesToString
            (stub.state (bytesToString (stub.state fromUserId))))).assets.map Asset.Name := by
      rw [hlS]; simp
    have hnR : (preR ++ (⟨A, hr.sub q⟩ : Asset) :: postR).map Asset.Name
        = (J.Unmarshal (bytesToString
            (stub.state (bytesToString (stub.state toUserId))))).assets.map Asset.Name := by
      rw [hlR]; simp
    refine ⟨⟨(J.Unmarshal (bytesToString (stub.state (bytesToString (stub.state fromUserId))))).userid,
        preS ++ ⟨A, hs.sub q⟩ :: postS⟩,
      ⟨(J.Unmarshal (bytesToString (stub.state (bytesToString (stub.state toUserId))))).userid,
        preR ++ ⟨A, hr.sub q⟩ :: postR⟩, ?_, hnS, hnR, ?_, ?_, ?_, ?_⟩
    · rw [hrun]
    · show ((preS ++ (⟨A, hs.sub q⟩ : Asset) :: postS).map Asset.Name).Nodup
      rw [hnS]; exact hS
    · show ((preR ++ (⟨A, hr.sub q⟩ : Asset) :: postR).map Asset.Name).Nodup
      rw [hnR]; exact hR
    · rw [hrun]; simp
    · intro hne
      rw [hrun]; simp [hne]
  · intro stub0 userId accountId h1
    cases hg : stub0.getFault (nGets stub0.log) with
    | some t => simp [create_user, GetState, hg] at h1
    | none =>
    cases hst : stub0.state userId with
    | some v => simp [create_user, GetState, hg, hst] at h1
    | none =>
      cases hp0 : stub0.putFault (nPuts stub0.log) with
      | some t =>
        simp [create_user, GetState, PutState, hg, hst, hp0, nPuts_append, nPuts] at h1
      | none =>
        cases hp1 : stub0.putFault (nPuts stub0.log + 1) with
        | some t =>
          simp [create_user, GetState, PutState, hg, hst, hp0, hp1, nPuts_append, nPuts] at h1
        | none =>
          rw [create_user_fresh J stub0 userId accountId hst hg hp0 hp1]
          exact ⟨⟨userId, [⟨"USD", GoInt.ofInt 10000⟩]⟩, rfl, by simp, by simp⟩

/-- Witness of C15: the successful transfer of 2500 USD on `ledgerTwoUsers`. -/
theorem C15_names_stay_unique_witness :
    (((jsonStd.Unmarshal (bytesToString (ledgerTwoUsers.state
        (bytesToString (ledgerTwoUsers.state "alice"))))).assets.map Asset.Name).Nodup ∧
      ((jsonStd.Unmarshal (bytesToString (ledgerTwoUsers.state
        (bytesToString (ledgerTwoUsers.state "bob"))))).assets.map Asset.Name).Nodup ∧
      (transfer_money jsonStd ledgerTwoUsers ["alice", "bob", "USD", "2500"]).1 = .success) ∧
    (∃ newS newR : Record,
      (transfer_money jsonStd ledgerTwoUsers ["alice", "bob", "USD", "2500"]).2.log
        = ledgerTwoUsers.log ++ [Call.GetState "alice",
            Call.GetState (bytesToString (ledgerTwoUsers.state "alice")),
            Call.GetState "bob", Call.GetState (bytesToString (ledgerTwoUsers.state "bob")),
            Call.PutState (bytesToString (ledgerTwoUsers.state "bob")) (jsonStd.Marshal newR),
            Call.PutState (bytesToString (ledgerTwoUsers.state "alice")) (jsonStd.Marshal newS)] ∧
      newS.assets.map Asset.Name = (jsonStd.Unmarshal (bytesToString (ledgerTwoUsers.state
        (bytesToString (ledgerTwoUsers.state "alice"))))).assets.map Asset.Name ∧
      newR.assets.map Asset.Name = (jsonStd.Unmarshal (bytesToString (ledgerTwoUsers.state
        (bytesToString (ledgerTwoUsers.state "bob"))))).assets.map Asset.Name ∧
      (newS.assets.map Asset.Name).Nodup ∧ (newR.assets.map Asset.Name).Nodup ∧
      (transfer_money jsonStd ledgerTwoUsers ["alice", "bob", "USD", "2500"]).2.state
          (bytesToString (ledgerTwoUsers.state "alice")) = some (jsonStd.Marshal newS) ∧
      (bytesToString (ledgerTwoUsers.state "bob") ≠ bytesToString (ledgerTwoUsers.state "alice") →
        (transfer_money jsonStd ledgerTwoUsers ["alice", "bob", "USD", "2500"]).2.state
          (bytesToString (ledgerTwoUsers.state "bob")) = some (jsonStd.Marshal newR))) :=
  ⟨⟨by decide, by decide, by decide⟩,
   (C15_names_stay_unique jsonStd ledgerTwoUsers "alice" "bob" "USD" "2500"
     (by decide) (by decide) (by decide)).1⟩

/-- C16.  Write order: on the existing-line path with all validations passed (sender's line
holds `hs ≥ q`, the debited recipient line passes the re-check), the first write of
`transfer_money` is the recipient's updated record.  If the ledger refuses it with error `t`,
the call returns that error, makes no further `PutState` call (no sender write, no
compensating write) and the ledger state is unchanged.  If the ledger accepts it, the next
call is the write of the sender's updated record. -/
theorem C16_recipient_written_first (J : Json) (stub : ChaincodeStub)
    (fromUserId toUserId A qtyArg S R : String) (bS bR : Bytes) (q hs hr : GoInt)
    (uS uR : String) (preS postS preR postR : List Asset)
    (hq : Atoi qtyArg = .ok q) (hpos : 0 < q.val)
    (hget : ∀ n, stub.getFault n = none)
    (hfrom : stub.state fromUserId = some S) (hto : stub.state toUserId = some R)
    (hbS : stub.state S = some bS) (hbR : stub.state R = some bR)
    (hS : J.Unmarshal bS = ⟨uS, preS ++ ⟨A, hs⟩ :: postS⟩) (hpostS : ∀ b ∈ postS, b.Name ≠ A)
    (hR : J.Unmarshal bR = ⟨uR, preR ++ ⟨A, hr⟩ :: postR⟩) (hpostR : ∀ b ∈ postR, b.Name ≠ A)
    (hhs : q.val ≤ hs.val) (hre : q.val ≤ (hr.sub q).val) :
    (∀ t, stub.putFault (nPuts stub.log) = some t →
      (transfer_money J stub [fromUserId, toUserId, A, qtyArg]).1 = .failure (.Ledger t) ∧
      (transfer_money J stub [fromUserId, toUserId, A, qtyArg]).2.state = stub.state ∧
      (transfer_money J stub [fromUserId, toUserId, A, qtyArg]).2.log
        = stub.log ++ [Call.GetState fromUserId, Call.GetState S, Call.GetState toUserId,
            Call.GetState R,
            Call.PutState R (J.Marshal ⟨uR, preR ++ ⟨A, hr.sub q⟩ :: postR⟩)]) ∧
    (stub.putFault (nPuts stub.log) = none →
      ∃ rest, (transfer_money J stub [fromUserId, toUserId, A, qtyArg]).2.log
        = stub.log ++ [Call.GetState fromUserId, Call.GetState S, Call.GetState toUserId,
            Call.GetState R,
            Call.PutState R (J.Marshal ⟨uR, preR ++ ⟨A, hr.sub q⟩ :: postR⟩),
            Call.PutState S (J.Marshal ⟨uS, preS ++ ⟨A, hs.sub q⟩ :: postS⟩)] ++ rest) := by
  have hre' : ¬ (hr.sub q).val < q.val := by omega
  have hrun := transfer_money_existing_line J stub fromUserId toUserId A qtyArg q uS uR
    preS postS preR postR hs hr hq hpos (hget _) (hget _) (hget _) (hget _)
    (by simp [hfrom, hbS, bytesToString, hS]) hpostS hhs
    (by simp [hto, hbR, bytesToString, hR]) hpostR
  rw [hrun]
  simp only [hfrom, hto, bytesToString, Option.getD_some]
  constructor
  · intro t hp0
    simp [hre', PutState, nPuts_append, nPuts, hp0]
  · intro hp0
    cases hp1 : stub.putFault (nPuts stub.log + 1) with
    | none =>
      exact ⟨[], by simp [hre', PutState, nPuts_append, nPuts, hp0, hp1]⟩
    | some t1 =>
      cases hp2 : stub.putFault (nPuts stub.log + 2) with
      | none =>
        exact ⟨[Call.PutState R (J.Marshal ⟨uR, preR ++ ⟨A, hr.sub q⟩ :: postR⟩)],
          by simp [hre', PutState, nPuts_append, nPuts, hp0, hp1, hp2]⟩
      | some t2 =>
        exact ⟨[Call.PutState R (J.Marshal ⟨uR, preR ++ ⟨A, hr.sub q⟩ :: postR⟩)],
          by simp [hre', PutState, nPuts_append, nPuts, hp0, hp1, hp2]⟩

/-- Witness of C16: the transfer of 2500 USD on a ledger that refuses the first write, and on
one that accepts every write. -/
theorem C16_recipient_written_first_witness :
    (Atoi "2500" = .ok (GoInt.ofInt 2500) ∧ 0 < (GoInt.ofInt 2500).val ∧
      (∀ n, ledgerFirstWriteFails.getFault n = none) ∧
      ledgerFirstWriteFails.state "alice" = some "A1" ∧
      ledgerFirstWriteFails.state "bob" = some "A2" ∧
      ledgerFirstWriteFails.state "A1" = some (recordText "alice" "USD" "10000") ∧
      ledgerFirstWriteFails.state "A2" = some (recordText "bob" "USD" "10000") ∧
      jsonStd.Unmarshal (recordText "alice" "USD" "10000")
        = ⟨"alice", [] ++ ⟨"USD", GoInt.ofInt 10000⟩ :: []⟩ ∧
      jsonStd.Unmarshal (recordText "bob" "USD" "10000")
        = ⟨"bob", [] ++ ⟨"USD", GoInt.ofInt 10000⟩ :: []⟩ ∧
      (GoInt.ofInt 2500).val ≤ (GoInt.ofInt 10000).val ∧
      (GoInt.ofInt 2500).val ≤ ((GoInt.ofInt 10000).sub (GoInt.ofInt 2500)).val ∧
      ledgerFirstWriteFails.putFault (nPuts ledgerFirstWriteFails.log) = some "write refused") ∧
    ((transfer_money jsonStd ledgerFirstWriteFails ["alice", "bob", "USD", "2500"]).1
        = .failure (.Ledger "write refused") ∧
      (transfer_money jsonStd ledgerFirstWriteFails ["alice", "bob", "USD", "2500"]).2.state
        = ledgerFirstWriteFails.state ∧
      (transfer_money jsonStd ledgerFirstWriteFails ["alice", "bob", "USD", "2500"]).2.log
        = ledgerFirstWriteFails.log ++ [Call.GetState "alice", Call.GetState "A1",
            Call.GetState "bob", Call.GetState "A2",
            Call.PutState "A2" (jsonStd.Marshal
              ⟨"bob", [] ++ ⟨"USD", (GoInt.ofInt 10000).sub (GoInt.ofInt 2500)⟩ :: []⟩)]) ∧
    (∃ rest, (transfer_money jsonStd ledgerTwoUsers ["alice", "bob", "USD", "2500"]).2.log
        = ledgerTwoUsers.log ++ [Call.GetState "alice", Call.GetState "A1",
            Call.GetState "bob", Call.GetState "A2",
            Call.PutState "A2" (jsonStd.Marshal
              ⟨"bob", [] ++ ⟨"USD", (GoInt.ofInt 10000).sub (GoInt.ofInt 2500)⟩ :: []⟩),
            Call.PutState "A1" (jsonStd.Marshal
              ⟨"alice", [] ++ ⟨"USD", (GoInt.ofInt 10000).sub (GoInt.ofInt 2500)⟩ :: []⟩)]
          ++ rest) :=
  ⟨⟨by rfl, by decide, fun _ => rfl, by decide, by decide, by decide, by decide, by decide,
      by decide, by decide, by decide, by decide⟩,
   (C16_recipient_written_first jsonStd ledgerFirstWriteFails "alice" "bob" "USD" "2500" "A1" "A2"
     (recordText "alice" "USD" "10000") (recordText "bob" "USD" "10000")
     (GoInt.ofInt 2500) (GoInt.ofInt 10000) (GoInt.ofInt 10000) "alice" "bob" [] [] [] []
     (by rfl) (by decide) (fun _ => rfl) (by decide) (by decide) (by decide) (by decide)
     (by decide) (by simp) (by decide) (by simp) (by decide) (by decide)).1
     "write refused" (by decide),
   (C16_recipient_written_first jsonStd ledgerTwoUsers "alice" "bob" "USD" "2500" "A1" "A2"
     (recordText "alice" "USD" "10000") (recordText "bob" "USD" "10000")
     (GoInt.ofInt 2500) (GoInt.ofInt 10000) (GoInt.ofInt 10000) "alice" "bob" [] [] [] []
     (by rfl) (by decide) (fun _ => rfl) (by decide) (by decide) (by decide) (by decide)
     (by decide) (by simp) (by decide) (by simp) (by decide) (by decide)).2 (by decide)⟩

/-- Debiting the line in the middle keeps every name and every line of another name, position
by position. -/
theorem forall2_debited (A : String) (pre post : List Asset) (h h' : GoInt) :
    List.Forall₂ (fun a b : Asset => b.Name = a.Name ∧ (a.Name ≠ A → b = a))
      (pre ++ ⟨A, h⟩ :: post) (pre ++ ⟨A, h'⟩ :: post) := by
  apply List.rel_append
  · exact List.forall₂_same.mpr (fun a _ => ⟨rfl, fun _ => rfl⟩)
  · exact List.Forall₂.cons ⟨rfl, fun hne => absurd rfl hne⟩
      (List.forall₂_same.mpr (fun a _ => ⟨rfl, fun _ => rfl⟩))

/-- C17.  Frame of a successful transfer: if `transfer_money` returns success, the ledger state
differs from the state before at most under the sender's and the recipient's account ids; the
call wrote exactly two records, the recipient's and then the sender's, and they are what the
ledger holds under those ids afterwards.  Each written record has the user id of the record
read, and its lines match the lines read position by position: same name, and the same line
whenever the name differs from `assetName`. -/
theorem C17_successful_transfer_frame (J : Json) (stub : ChaincodeStub)
    (fromUserId toUserId A qtyArg : String)
    (hok : (transfer_money J stub [fromUserId, toUserId, A, qtyArg]).1 = .success) :
    ∃ newS newR : Record,
      (transfer_money J stub [fromUserId, toUserId, A, qtyArg]).2.log
        = stub.log ++ [Call.GetState fromUserId, Call.GetState (bytesToString (stub.state fromUserId)),
            Call.GetState toUserId, Call.GetState (bytesToString (stub.state toUserId)),
            Call.PutState (bytesToString (stub.state toUserId)) (J.Marshal newR),
            Call.PutState (bytesToString (stub.state fromUserId)) (J.Marshal newS)] ∧
      (∀ k, k ≠ bytesToString (stub.state fromUserId) → k ≠ bytesToString (stub.state toUserId) →
        (transfer_money J stub [fromUserId, toUserId, A, qtyArg]).2.state k = stub.state k) ∧
      (transfer_money J stub [fromUserId, toUserId, A, qtyArg]).2.state
          (bytesToString (stub.state fromUserId)) = some (J.Marshal newS) ∧
      (bytesToString (stub.state toUserId) ≠ bytesToString (stub.state fromUserId) →
        (transfer_money J stub [fromUserId, toUserId, A, qtyArg]).2.state
          (bytesToString (stub.state toUserId)) = some (J.Marshal newR)) ∧
      newS.userid = (J.Unmarshal (bytesToString
        (stub.state (bytesToString (stub.state fromUserId))))).userid ∧
      newR.userid = (J.Unmarshal (bytesToString
        (stub.state (bytesToString (stub.state toUserId))))).userid ∧
      List.Forall₂ (fun a b : Asset => b.Name = a.Name ∧ (a.Name ≠ A → b = a))
        (J.Unmarshal (bytesToString (stub.state (bytesToString (stub.state fromUserId))))).assets
        newS.assets ∧
      List.Forall₂ (fun a b : Asset => b.Name = a.Name ∧ (a.Name ≠ A → b = a))
        (J.Unmarshal (bytesToString (stub.state (bytesToString (stub.state toUserId))))).assets
        newR.assets := by
  obtain ⟨q, preS, postS, hs, preR, postR, hr, _, _, hlS, _, _, hlR, _, _, hrun⟩ :=
    transfer_money_success J stub fromUserId toUserId A qtyArg hok
  refine ⟨⟨(J.Unmarshal (bytesToString (stub.state (bytesToString (stub.state fromUserId))))).userid,
      preS ++ ⟨A, hs.sub q⟩ :: postS⟩,
    ⟨(J.Unmarshal (bytesToString (stub.state (bytesToString (stub.state toUserId))))).userid,
      preR ++ ⟨A, hr.sub q⟩ :: postR⟩, ?_, ?_, ?_, ?_, rfl, rfl, ?_, ?_⟩
  · rw [hrun]
  · intro k hS hR
    exact transfer_money_frame J stub fromUserId toUserId A qtyArg k hS hR
  · rw [hrun]; simp
  · intro hne
    rw [hrun]; simp [hne]
  · rw [hlS]; exact forall2_debited A preS postS hs (hs.sub q)
  · rw [hlR]; exact forall2_debited A preR postR hr (hr.sub q)

/-- Witness of C17: the successful transfer of 2500 USD on `ledgerTwoUsers`. -/
theorem C17_successful_transfer_frame_witness :
    (transfer_money jsonStd ledgerTwoUsers ["alice", "bob", "USD", "2500"]).1 = .success ∧
    (∃ newS newR : Record,
      (transfer_money jsonStd ledgerTwoUsers ["alice", "bob", "USD", "2500"]).2.log
        = ledgerTwoUsers.log ++ [Call.GetState "alice",
            Call.GetState (bytesToString (ledgerTwoUsers.state "alice")),
            Call.GetState "bob", Call.GetState (bytesToString (ledgerTwoUsers.state "bob")),
            Call.PutState (bytesToString (ledgerTwoUsers.state "bob")) (jsonStd.Marshal newR),
            Call.PutState (bytesToString (ledgerTwoUsers.state "alice")) (jsonStd.Marshal newS)] ∧
      (∀ k, k ≠ bytesToString (ledgerTwoUsers.state "alice") →
        k ≠ bytesToString (ledgerTwoUsers.state "bob") →
        (transfer_money jsonStd ledgerTwoUsers ["alice", "bob", "USD", "2500"]).2.state k
          = ledgerTwoUsers.state k) ∧
      (transfer_money jsonStd ledgerTwoUsers ["alice", "bob", "USD", "2500"]).2.state
          (bytesToString (ledgerTwoUsers.state "alice")) = some (jsonStd.Marshal newS) ∧
      (bytesToString (ledgerTwoUsers.state "bob") ≠ bytesToString (ledgerTwoUsers.state "alice") →
        (transfer_money jsonStd ledgerTwoUsers ["alice", "bob", "USD", "2500"]).2.state
          (bytesToString (ledgerTwoUsers.state "bob")) = some (jsonStd.Marshal newR)) ∧
      newS.userid = (jsonStd.Unmarshal (bytesToString (ledgerTwoUsers.state
        (bytesToString (ledgerTwoUsers.state "alice"))))).userid ∧
      newR.userid = (jsonStd.Unmarshal (bytesToString (ledgerTwoUsers.state
        (bytesToString (ledgerTwoUsers.state "bob"))))).userid ∧
      List.Forall₂ (fun a b : Asset => b.Name = a.Name ∧ (a.Name ≠ "USD" → b = a))
        (jsonStd.Unmarshal (bytesToString (ledgerTwoUsers.state
          (bytesToString (ledgerTwoUsers.state "alice"))))).assets newS.assets ∧
      List.Forall₂ (fun a b : Asset => b.Name = a.Name ∧ (a.Name ≠ "USD" → b = a))
        (jsonStd.Unmarshal (bytesToString (ledgerTwoUsers.state
          (bytesToString (ledgerTwoUsers.state "bob"))))).assets newR.assets) :=
  ⟨by decide,
   C17_successful_transfer_frame jsonStd ledgerTwoUsers "alice" "bob" "USD" "2500" (by decide)⟩

/-- C18.  Self-transfer: when `fromUserId` and `toUserId` resolve to the same account `S` whose
record's line for `A` (the last, in particular the only, line of that name) holds `h ≥ 2q`,
with `q > 0`, every read answered and every write accepted, `transfer_money` succeeds and the
record finally stored under `S` has that line at `h - q`, which is neither `h` nor `h - 2q`:
both copies are decoded from the same stored text, each is debited once, and the sender's
copy is written last. -/
theorem C18_self_transfer_debits_once (J : Json) (stub : ChaincodeStub)
    (fromUserId toUserId A qtyArg S : String) (bS : Bytes) (q h : GoInt)
    (u : String) (pre post : List Asset)
    (hq : Atoi qtyArg = .ok q) (hpos : 0 < q.val)
    (hget : ∀ n, stub.getFault n = none) (hput : ∀ n, stub.putFault n = none)
    (hfrom : stub.state fromUserId = some S) (hto : stub.state toUserId = some S)
    (hbS : stub.state S = some bS)
    (hS : J.Unmarshal bS = ⟨u, pre ++ ⟨A, h⟩ :: post⟩) (hpost : ∀ b ∈ post, b.Name ≠ A)
    (h2q : 2 * q.val ≤ h.val) :
    (transfer_money J stub [fromUserId, toUserId, A, qtyArg]).1 = .success ∧
    (transfer_money J stub [fromUserId, toUserId, A, qtyArg]).2.state S
      = some (J.Marshal ⟨u, pre ++ ⟨A, h.sub q⟩ :: post⟩) ∧
    (h.sub q).val = h.val - q.val ∧ (h.sub q).val ≠ h.val ∧ (h.sub q).val ≠ h.val - 2 * q.val ∧
    (transfer_money J stub [fromUserId, toUserId, A, qtyArg]).2.log
      = stub.log ++ [Call.GetState fromUserId, Call.GetState S, Call.GetState toUserId,
          Call.GetState S,
          Call.PutState S (J.Marshal ⟨u, pre ++ ⟨A, h.sub q⟩ :: post⟩),
          Call.PutState S (J.Marshal ⟨u, pre ++ ⟨A, h.sub q⟩ :: post⟩)] := by
  have hv : (h.sub q).val = h.val - q.val := GoInt.sub_val_of_le h q (by omega) (by omega)
  have hre : ¬ (h.sub q).val < q.val := by rw [hv]; omega
  have hrun := transfer_money_existing_line J stub fromUserId toUserId A qtyArg q u u
    pre post pre post h h hq hpos (hget _) (hget _) (hget _) (hget _)
    (by simp [hfrom, hbS, bytesToString, hS]) hpost (by omega)
    (by simp [hto, hbS, bytesToString, hS]) hpost
  rw [hrun]
  simp only [hfrom, hto, bytesToString, Option.getD_some]
  refine ⟨?_, ?_, hv, by omega, by omega, ?_⟩
  · simp [hre, PutState, hput]
  · simp [hre, PutState, hput]
  · simp [hre, PutState, hput]

/-- Witness of C18: a transfer of 2500 USD from `alice` to `alias`, both resolving to `A1`. -/
theorem C18_self_transfer_debits_once_witness :
    (Atoi "2500" = .ok (GoInt.ofInt 2500) ∧ 0 < (GoInt.ofInt 2500).val ∧
      (∀ n, ledgerSharedAccount.getFault n = none) ∧ (∀ n, ledgerSharedAccount.putFault n = none) ∧
      ledgerSharedAccount.state "alice" = some "A1" ∧
      ledgerSharedAccount.state "alias" = some "A1" ∧
      ledgerSharedAccount.state "A1" = some (recordText "alice" "USD" "10000") ∧
      jsonStd.Unmarshal (recordText "alice" "USD" "10000")
        = ⟨"alice", [] ++ ⟨"USD", GoInt.ofInt 10000⟩ :: []⟩ ∧
      2 * (GoInt.ofInt 2500).val ≤ (GoInt.ofInt 10000).val) ∧
    ((transfer_money jsonStd ledgerSharedAccount ["alice", "alias", "USD", "2500"]).1 = .success ∧
      (transfer_money jsonStd ledgerSharedAccount ["alice", "alias", "USD", "2500"]).2.state "A1"
        = some (jsonStd.Marshal
            ⟨"alice", [] ++ ⟨"USD", (GoInt.ofInt 10000).sub (GoInt.ofInt 2500)⟩ :: []⟩) ∧
      ((GoInt.ofInt 10000).sub (GoInt.ofInt 2500)).val
        = (GoInt.ofInt 10000).val - (GoInt.ofInt 2500).val) ∧
    (transfer_money jsonStd ledgerSharedAccount ["alice", "alias", "USD", "2500"]).2.state "A1"
      = some (recordText "alice" "USD" "7500") ∧
    (transfer_money jsonStd ledgerTwoUsers ["alice", "alice", "USD", "2500"]).2.state "A1"
      = some (recordText "alice" "USD" "7500") :=
  have h := C18_self_transfer_debits_once jsonStd ledgerSharedAccount "alice" "alias" "USD" "2500"
    "A1" (recordText "alice" "USD" "10000") (GoInt.ofInt 2500) (GoInt.ofInt 10000) "alice" [] []
    (by rfl) (by decide) (fun _ => rfl) (fun _ => rfl) (by decide) (by decide) (by decide)
    (by decide) (by simp) (by decide)
  ⟨⟨by rfl, by decide, fun _ => rfl, fun _ => rfl, by decide, by decide, by decide, by decide,
      by decide⟩,
   ⟨h.1, h.2.1, h.2.2.1⟩, by decide, by decide⟩

/-- C19.  The account id is not checked: when the key `userId` is absent, the key `accountId`
already holds a value `old`, the read is answered and both writes are accepted,
`create_user(userId, accountId)` returns success; the value under `accountId` is then the text
of the seed record (user id `userId`, single line USD 10000) in place of `old`, and `userId`
is mapped to `accountId`. -/
theorem C19_account_id_not_checked (J : Json) (stub : ChaincodeStub)
    (userId accountId : String) (old : Bytes)
    (habs : stub.state userId = none) (hold : stub.state accountId = some old)
    (hg : stub.getFault (nGets stub.log) = none)
    (hp0 : stub.putFault (nPuts stub.log) = none)
    (hp1 : stub.putFault (nPuts stub.log + 1) = none) :
    (create_user J stub [userId, accountId]).1 = .success ∧
    (create_user J stub [userId, accountId]).2.state accountId
      = some (J.Marshal ⟨userId, [⟨"USD", GoInt.ofInt 10000⟩]⟩) ∧
    (create_user J stub [userId, accountId]).2.state userId = some accountId ∧
    (create_user J stub [userId, accountId]).2.log
      = stub.log ++ [Call.GetState userId, Call.PutState userId accountId,
          Call.PutState accountId (J.Marshal ⟨userId, [⟨"USD", GoInt.ofInt 10000⟩]⟩)] := by
  have hne : ¬ userId = accountId := by
    intro h; rw [h, hold] at habs; cases habs
  rw [create_user_fresh J stub userId accountId habs hg hp0 hp1]
  exact ⟨rfl, by simp, by simp [hne], rfl⟩

/-- Witness of C19: `create_user(carol, A1)` on `ledgerTwoUsers` replaces the record of
`alice` under `A1` by the seed record of `carol`. -/
theorem C19_account_id_not_checked_witness :
    (ledgerTwoUsers.state "carol" = none ∧
      ledgerTwoUsers.state "A1" = some (recordText "alice" "USD" "10000") ∧
      ledgerTwoUsers.getFault (nGets ledgerTwoUsers.log) = none ∧
      ledgerTwoUsers.putFault (nPuts ledgerTwoUsers.log) = none ∧
      ledgerTwoUsers.putFault (nPuts ledgerTwoUsers.log + 1) = none) ∧
    ((create_user jsonStd ledgerTwoUsers ["carol", "A1"]).1 = .success ∧
      (create_user jsonStd ledgerTwoUsers ["carol", "A1"]).2.state "A1"
        = some (jsonStd.Marshal ⟨"carol", [⟨"USD", GoInt.ofInt 10000⟩]⟩) ∧
      (create_user jsonStd ledgerTwoUsers ["carol", "A1"]).2.state "carol" = some "A1" ∧
      (create_user jsonStd ledgerTwoUsers ["carol", "A1"]).2.log
        = ledgerTwoUsers.log ++ [Call.GetState "carol", Call.PutState "carol" "A1",
            Call.PutState "A1" (jsonStd.Marshal ⟨"carol", [⟨"USD", GoInt.ofInt 10000⟩]⟩)]) :=
  ⟨⟨by decide, by decide, by decide, by decide, by decide⟩,
   C19_account_id_not_checked jsonStd ledgerTwoUsers "carol" "A1"
     (recordText "alice" "USD" "10000") (by decide) (by decide) (by decide) (by decide)
     (by decide)⟩

end Chaincode
